import Mathlib

/-!
Verification development for the LifeLink mesh node
(src/esp32/lifelink/src/lifelink_lora_node.cpp, ai_triage.cpp).

The C++ sources are shallowly embedded: machine integers (uint8_t,
uint16_t, uint32_t) become Nat with explicit reduction modulo 2^8, 2^16,
2^32 at the operations where the C code truncates or wraps; C strings
become List Char; the fixed-capacity tables (members_, seen_, tx_queue_,
pending_data_, history_) become lists whose loops are translated into
structurally recursive scans that visit the slots in the same order as
the C for-loops.  millis() becomes an explicit `now` parameter threaded
through each handler (one call of a handler uses a single time value).
float becomes Rat: every float operation used by the classifier
(counting, min, clamping, division by the positive constants 50, 200,
20, 15 and the caps quotient) is exact or monotone, so the order facts
proved here transfer to the float evaluation.  Serial prints and the
radio driver are external effects with no bearing on the claims; the
one radio call whose result the code consumes, setFrequency, is treated
as succeeding.
-/

namespace LifeLink

/-! ## Machine-integer helpers -/

/-- Wrap-around subtraction of 32-bit unsigned integers, as performed by
the C expression now - then on uint32_t values. -/
def sub32 (a b : Nat) : Nat :=
  (a % 4294967296 + (4294967296 - b % 4294967296)) % 4294967296

/-! ## Frequency-hop channel computation (lifelink_lora_node.cpp, computeHopChannelIndex) -/

/-- Number of entries of kHopChannelsMhz, the production channel table. -/
def kHopChannelCount : Nat := 2

/-- Translation of computeHopChannelIndex: mixed = seed XOR
(seq * 1103515245 + 12345) on uint32_t, then mixed ^= mixed >> 13, then
reduce modulo the channel count. -/
def computeHopChannelIndex (seed seq : Nat) : Nat :=
  let mixed := (seed ^^^ ((seq * 1103515245 + 12345) % 4294967296)) % 4294967296
  let mixed2 := (mixed ^^^ (mixed >>> 13)) % 4294967296
  mixed2 % kHopChannelCount

/-- The channel-index formula exactly as the spec words it (section 4.5):
channel_index(seed, seq) = ((seed XOR (seq * 1103515245 + 12345)) XOR
((seed XOR (seq * 1103515245 + 12345)) >> 13)) mod N_channels, all
arithmetic wrapping modulo 2^32. -/
def channelIndexSpec (seed seq : Nat) : Nat :=
  let t := (seq * 1103515245 + 12345) % 4294967296
  let u := (seed ^^^ t) % 4294967296
  ((u ^^^ (u >>> 13)) % 4294967296) % kHopChannelCount

/-! ## C string helpers: substring search (strstr), ctype, strtoul -/

/-- Whether pat occurs at the start of hay (the per-position test of
strstr). -/
def leadMatch : List Char → List Char → Bool
  | [], _ => true
  | _ :: _, [] => false
  | p :: ps, h :: hs => p == h && leadMatch ps hs

/-- Translation of strstr(hay, pat) != NULL: pat occurs as a contiguous
substring of hay. -/
def containsSub (hay pat : List Char) : Bool :=
  match hay with
  | [] => leadMatch pat []
  | _ :: hs => leadMatch pat hay || containsSub hs pat

/-- Index (in bytes from the start of hay) of the first occurrence of
pat in hay, as computed by strstr; none when absent. -/
def findSub (hay pat : List Char) : Option Nat :=
  match hay with
  | [] => if leadMatch pat [] then some 0 else none
  | _ :: hs =>
      if leadMatch pat hay then some 0
      else (findSub hs pat).map (· + 1)

/-- ASCII isdigit. -/
def isDigitC (c : Char) : Bool := '0' ≤ c && c ≤ '9'

/-- ASCII isalpha (the newlib C locale classifies only ASCII). -/
def isAlphaC (c : Char) : Bool := ('a' ≤ c && c ≤ 'z') || ('A' ≤ c && c ≤ 'Z')

/-- ASCII isupper. -/
def isUpperC (c : Char) : Bool := 'A' ≤ c && c ≤ 'Z'

/-- ASCII isalnum. -/
def isAlnumC (c : Char) : Bool := isAlphaC c || isDigitC c

/-- ASCII tolower. -/
def toLowerC (c : Char) : Char :=
  if isUpperC c then Char.ofNat (c.toNat + 32) else c

/-- ASCII isspace, the whitespace class skipped by strtoul. -/
def isSpaceC (c : Char) : Bool :=
  c == ' ' || c == '\t' || c == '\n' || (c.toNat == 11) || (c.toNat == 12) || c == '\r'

/-- Value of an ASCII hex digit. -/
def hexVal (c : Char) : Option Nat :=
  if isDigitC c then some (c.toNat - 48)
  else if 'a' ≤ c && c ≤ 'f' then some (c.toNat - 87)
  else if 'A' ≤ c && c ≤ 'F' then some (c.toNat - 55)
  else none

/-- Digit value in the given base (10 or 16), none when the character is
not a digit of that base. -/
def digitVal (base : Nat) (c : Char) : Option Nat :=
  if base == 16 then hexVal c
  else if isDigitC c then some (c.toNat - 48) else none

/-- Accumulate the digit run at the head of cs. -/
def digitsAcc (base : Nat) : List Char → Nat → Nat
  | [], acc => acc
  | c :: cs, acc =>
      match digitVal base c with
      | some d => digitsAcc base cs (acc * base + d)
      | none => acc

/-- Translation of strtoul(s, NULL, base) on a 32-bit unsigned long:
skip leading whitespace, take one optional sign, in base 16 allow an 0x
prefix, read the digit run, saturate at 2^32 - 1 on overflow, and negate
in unsigned arithmetic when the sign was minus. -/
def strtoulC (base : Nat) (s : List Char) : Nat :=
  let s1 := s.dropWhile (fun c => isSpaceC c)
  let (neg, s2) :=
    match s1 with
    | '-' :: r => (true, r)
    | '+' :: r => (false, r)
    | r => (false, r)
  let s3 :=
    if base == 16 then
      match s2 with
      | '0' :: x :: r =>
          if (x == 'x' || x == 'X') && (match r with
            | c :: _ => (hexVal c).isSome
            | [] => false) then r else s2
      | _ => s2
    else s2
  let v := digitsAcc base s3 0
  if v ≤ 4294967295 then
    (if neg then (4294967296 - v) % 4294967296 else v)
  else 4294967295

/-- Decimal digits of a Nat, as printed by snprintf %u. -/
def natDigits (n : Nat) : List Char := (Nat.repr n).data

/-! ## Text classifier (ai_triage.cpp) -/

/-- Translation of the loop body of normalizeText: lowercase
alphanumerics pass through, every run of other characters becomes one
space, nothing is emitted before the first alphanumeric, and the output
is cut when the 160-byte buffer is full (guard j + 1 < out_len). -/
def normalizeGo : List Char → Bool → Nat → List Char
  | [], _, _ => []
  | c :: rest, prevSpace, j =>
      if 160 ≤ j + 1 then []
      else if isAlnumC c then toLowerC c :: normalizeGo rest false (j + 1)
      else if prevSpace then normalizeGo rest prevSpace j
      else ' ' :: normalizeGo rest true (j + 1)

/-- Translation of normalizeText(in, out, 160): the loop above followed
by stripping the single possible trailing space. -/
def normalizeText (cs : List Char) : List Char :=
  let r := normalizeGo cs true 0
  if r.getLast? == some ' ' then r.dropLast else r

/-- The token sequence produced by repeated strtok_r with a single
delimiter character: maximal delimiter-free nonempty runs. -/
def tokSplit (delim : Char) : List Char → List (List Char)
  | [] => []
  | c :: cs =>
      if c == delim then tokSplit delim cs
      else (c :: cs.takeWhile (fun d => d != delim)) ::
        tokSplit delim (cs.dropWhile (fun d => d != delim))
termination_by cs => cs.length
decreasing_by
  · simp only [List.length_cons]; omega
  · simp only [List.length_cons]
    have hdw : ∀ (p : Char → Bool) (l : List Char),
        (l.dropWhile p).length ≤ l.length := by
      intro p l
      induction l with
      | nil => simp
      | cons d ds ih =>
          by_cases h : p d
          · simp only [List.dropWhile, h, List.length_cons]
            omega
          · simp [List.dropWhile, h]
    exact Nat.lt_succ_of_le (hdw _ _)

/-- containsToken(norm, token): token equals one of the space-delimited
words of norm. -/
def containsToken (norm token : List Char) : Bool :=
  (tokSplit ' ' norm).any (fun t => t == token)

/-- containsAnySubstring(haystack, words). -/
def containsAnySubstring (hay : List Char) (words : List (List Char)) : Bool :=
  words.any (fun w => containsSub hay w)

/-- FNV-1a 32-bit hash of a byte string. -/
def fnv1a32 (g : List Char) : Nat :=
  g.foldl (fun h c => ((h ^^^ c.toNat % 256) * 16777619) % 4294967296) 2166136261

/-- The kLocCues table. -/
def kLocCues : List (List Char) :=
  (["near", "at", "by", "behind", "next to", "coords", "gps", "location"]).map
    (fun s => s.data)

/-- The kPlaceTokens table. -/
def kPlaceTokens : List (List Char) :=
  (["library", "bridge", "camp", "market", "hospital", "school"]).map (fun s => s.data)

/-- The kTimeWords table. -/
def kTimeWords : List (List Char) :=
  (["now", "asap", "urgent", "tonight", "immediately", "right away", "soon", "quick"]).map
    (fun s => s.data)

/-- The kLocWords table. -/
def kLocWords : List (List Char) :=
  (["at", "near", "behind", "by", "next to", "around", "in", "gps", "coords",
    "coordinate", "location", "library", "bridge", "camp", "market", "hospital",
    "school"]).map (fun s => s.data)

/-- The kBucketMedic lexicon. -/
def kBucketMedic : List (List Char) :=
  (["medic", "doctor", "injured", "bleed", "bleeding", "unconscious", "hurt",
    "wounded", "ambulance", "pain", "trauma", "emergency", "critical", "wound",
    "wounds", "fracture", "broken bone", "stabilize", "first aid", "paramedic",
    "nurse", "hospital", "bleeding out", "hemorrhage", "concussion", "laceration",
    "stitches", "cardiac", "cpr", "resuscitate", "collapse", "unresponsive",
    "casualty", "casualties", "not talking"]).map (fun s => s.data)

/-- The kBucketWater lexicon. -/
def kBucketWater : List (List Char) :=
  (["water", "thirsty", "dehydration", "bottle", "well", "hydration", "drink",
    "drinking", "dry", "clean water", "potable", "running out of water",
    "no water", "water supply", "thirst", "parched", "reservoir", "purify",
    "filter", "cistern", "faucet", "running water"]).map (fun s => s.data)

/-- The kBucketFood lexicon. -/
def kBucketFood : List (List Char) :=
  (["food", "hungry", "ration", "rice", "bread", "meal", "starving", "rations",
    "supplies", "feed", "feeding", "malnutrition", "famine", "provisions",
    "groceries", "eat", "eating", "kitchen", "cook", "cooking", "starvation",
    "no food", "out of food", "need food", "run out"]).map (fun s => s.data)

/-- The kBucketShelter lexicon. -/
def kBucketShelter : List (List Char) :=
  (["shelter", "tent", "roof", "cold", "sleep", "blanket", "safehouse",
    "housing", "warm", "warmth", "indoors", "building", "refuge", "camp",
    "campsite", "bed", "sleeping", "freezing", "hypothermia", "frostbite",
    "nowhere to stay", "homeless", "evicted"]).map (fun s => s.data)

/-- The kBucketDanger lexicon. -/
def kBucketDanger : List (List Char) :=
  (["gun", "shooting", "shots", "explosion", "attack", "fire", "bomb", "sniper",
    "danger", "gunfire", "armed", "weapon", "weapons", "violence", "hostile",
    "strike", "striking", "explosive", "blast", "IED", "grenade", "ambush",
    "raid", "invasion", "threat", "threatened"]).map (fun s => s.data)

/-- The kBucketEvac lexicon. -/
def kBucketEvac : List (List Char) :=
  (["evacuate", "leave", "run", "escape", "exit", "safe route", "move out",
    "relocate", "evacuation", "evac", "get out", "flee", "fleeing", "exodus",
    "withdraw", "pull out", "route out", "safe path", "clear path", "extract",
    "extraction", "rescue", "evacuees"]).map (fun s => s.data)

/-- The kBucketInfo lexicon (the apostrophe of one entry is built with
Char.ofNat 39). -/
def kBucketInfo : List (List Char) :=
  (["where", "when", "status", "update", "check-in", "anyone", "need info"]).map
      (fun s => s.data) ++
  [("what".data ++ [Char.ofNat 39] ++ "s up".data)] ++
  (["whats up", "news", "situation", "report", "intel", "intelligence",
    "briefing", "sitrep", "location of", "anyone know", "heard", "rumor",
    "confirmed", "unconfirmed", "latest", "current"]).map (fun s => s.data)

/-- The kBucketDisaster lexicon. -/
def kBucketDisaster : List (List Char) :=
  (["flood", "flooding", "flooded", "water everywhere", "earthquake", "quake",
    "tsunami", "landslide", "hurricane", "tornado", "storm", "disaster",
    "natural disaster", "wildfire", "mudslide", "avalanche", "cyclone",
    "typhoon", "drought", "blizzard", "hail", "building collapse", "collapsed",
    "washed away", "inundated", "submerged", "trapped"]).map (fun s => s.data)

/-- The kBucketSickness lexicon (the apostrophe of one entry is built
with Char.ofNat 39). -/
def kBucketSickness : List (List Char) :=
  (["sick", "illness", "ill", "fever", "cough", "virus", "disease", "vomiting",
    "diarrhea", "symptoms", "infection", "infected", "contagious", "outbreak",
    "epidemic", "pandemic", "nausea", "dizzy", "weak"]).map (fun s => s.data) ++
  [("can".data ++ [Char.ofNat 39] ++ "t breathe".data)] ++
  (["shortness of breath", "chest pain", "allergic", "allergy", "reaction",
    "poisoning", "food poisoning", "dehydrated"]).map (fun s => s.data)

/-- The kBucketChat lexicon. -/
def kBucketChat : List (List Char) :=
  (["lol", "ok", "okay", "thanks", "thank you", "see you", "brb", "hi", "hello",
    "good", "nice", "hey", "yeah", "yep", "nope", "sure", "cool", "great",
    "fine", "bye", "later", "got it", "understood", "copy", "roger", "check",
    "alright", "whatever", "k"]).map (fun s => s.data)

/-- The kBuckets table, in source order. -/
def kBuckets : List (List (List Char)) :=
  [kBucketMedic, kBucketWater, kBucketFood, kBucketShelter, kBucketDanger,
   kBucketEvac, kBucketInfo, kBucketDisaster, kBucketSickness, kBucketChat]

/-- Number of word starts of the normalized text, the len_words loop of
buildVector ((i == 0 or previous is space) and current is not space);
the accumulator carries the previous character, initially a space so
that position 0 counts. -/
def wordStarts : List Char → Char → Nat
  | [], _ => 0
  | c :: cs, prev =>
      (if prev == ' ' && c != ' ' then 1 else 0) + wordStarts cs c

/-- Caps over letters of the raw text, 0 when there are no letters. -/
def capsOverLetters (raw : List Char) : ℚ :=
  if (raw.filter (fun c => isAlphaC c)).length = 0 then 0
  else ((raw.filter (fun c => isUpperC c)).length : ℚ) /
    ((raw.filter (fun c => isAlphaC c)).length : ℚ)

/-- Bucket score: number of bucket phrases that occur as substrings of
the normalized text (the raw count written into x[8..17]). -/
def scoreBucket (norm : List Char) (bucket : List (List Char)) : Nat :=
  (bucket.filter (fun w => containsSub norm w)).length

/-- The padded string of the 4-gram loop: snprintf(" %s ", norm) into a
170-byte buffer, so at most 169 characters are kept. -/
def paddedNorm (norm : List Char) : List Char :=
  (' ' :: (norm ++ [' '])).take 169

/-- The sliding 4-character windows of a string. -/
def windows4 : List Char → List (List Char)
  | c0 :: c1 :: c2 :: c3 :: rest => [c0, c1, c2, c3] :: windows4 (c1 :: c2 :: c3 :: rest)
  | _ => []

/-- Raw count of windows hashing to 4-gram bin b (all-space windows are
skipped; bin = fnv1a32(window) mod 64). -/
def rawBin (norm : List Char) (b : Nat) : Nat :=
  ((windows4 (paddedNorm norm)).filter
    (fun g => !(g.all (fun c => c == ' ')) && fnv1a32 g % 64 == b)).length

/-- The raw text seen by the classifier: the input truncated to 159
bytes (text.substring(0, 159).toCharArray(raw, 160)). -/
def rawOf (text : List Char) : List Char := text.take 159

/-- The normalized text of an input. -/
def normOf (text : List Char) : List Char := normalizeText (rawOf text)

/-- Translation of buildVector: the 82-entry feature vector, as a
function of the index (0..7 structural, 8..17 bucket counts, 18..81
4-gram bins; anything past 81 reads the untouched 0 of the cleared
array). -/
def buildVector (text : List Char) (i : Nat) : ℚ :=
  if i = 0 then (min (wordStarts (normOf text) ' ') 50 : ℚ) / 50
  else if i = 1 then (min (normOf text).length 200 : ℚ) / 200
  else if i = 2 then
    (min (((rawOf text).filter (fun c => isDigitC c)).length) 20 : ℚ) / 20
  else if i = 3 then (if (rawOf text).any (fun c => c == '!') then 1 else 0)
  else if i = 4 then (if (rawOf text).any (fun c => c == '?') then 1 else 0)
  else if i = 5 then min (capsOverLetters (rawOf text) * 10) 1
  else if i = 6 then
    (if kTimeWords.any (fun w => containsToken (normOf text) w) then 1 else 0)
  else if i = 7 then
    (if containsAnySubstring (normOf text) kLocWords then 1 else 0)
  else if i < 18 then (scoreBucket (normOf text) (kBuckets.getD (i - 8) []) : ℚ)
  else if i < 82 then (min (rawBin (normOf text) (i - 18)) 15 : ℚ) / 15
  else 0

/-- The TriageOutput struct of ai_triage.h (String fields become
List Char, uint8_t fields become Nat). -/
structure TriageOutput where
  is_vital : Bool
  wire_payload : List Char
  intent : List Char
  urgency : Nat
  flags : Nat
  count : Nat
  location : List Char
deriving Repr, DecidableEq

/-- extractCount: value of the first 1- or 2-digit run of the
normalized text, 0 when there is none. -/
def extractCount : List Char → Nat
  | [] => 0
  | c :: cs =>
      if isDigitC c then
        match cs with
        | d :: _ =>
            if isDigitC d then (c.toNat - 48) * 10 + (d.toNat - 48)
            else c.toNat - 48
        | [] => c.toNat - 48
      else extractCount cs

/-- extractLocationToken: first kPlaceTokens entry occurring as a
substring of the normalized text, else "unknown". -/
def extractLocationToken (norm : List Char) : List Char :=
  match kPlaceTokens.find? (fun w => containsSub norm w) with
  | some w => w
  | none => "unknown".data

/-- needsLocation: none of the kLocCues occurs in the normalized
text. -/
def needsLocation (norm : List Char) : Bool :=
  !(containsAnySubstring norm kLocCues)

/-- needsConfirmation on the intent label. -/
def needsConfirmation (intent : List Char) : Bool :=
  intent == "DANGER".data || intent == "EVAC".data || intent == "DISASTER".data

/-- Modelled from the spec: INTENT_CLASS_COUNT of the generated header
ai_tree_generated.h, which is not under src; section 4.1 fixes ten
intent labels. -/
def INTENT_CLASS_COUNT : Int := 10

/-- Modelled from the spec: INTENT_CLASSES of the generated header
ai_tree_generated.h, which is not under src; section 4.1 lists the ten
labels in this order. -/
def INTENT_CLASSES : List (List Char) :=
  (["MEDIC", "WATER", "FOOD", "SHELTER", "DANGER", "EVAC", "INFO", "DISASTER",
    "SICKNESS", "CHAT"]).map (fun s => s.data)

/-- Translation of runTriage.  The three tree evaluators vital_predict,
intent_predict and urgency_predict live in the generated header
ai_tree_generated.h, which is not under src, so they are taken as
parameters (int8_t results become Int); everything else follows
ai_triage.cpp line by line.  When the vital tree does not answer 1 the
function returns is_vital = false, wire_payload = the input text,
intent = CHAT, urgency = flags = count = 0, location = "unknown". -/
def runTriage (vp ip up : (Nat → ℚ) → Int) (text : List Char) : TriageOutput :=
  let x := buildVector text
  let vitalIdx := vp x
  if vitalIdx == 1 then
    let intentIdx := ip x
    let urgencyIdx := up x
    let intent :=
      if 0 ≤ intentIdx && intentIdx < INTENT_CLASS_COUNT then
        INTENT_CLASSES.getD intentIdx.toNat []
      else "INFO".data
    let urgency0 : Nat := if urgencyIdx < 0 then 2 else urgencyIdx.toNat % 256
    let urgency := if 3 < urgency0 then 3 else urgency0
    let norm := normalizeText (rawOf text)
    let needLoc := needsLocation norm
    let needConfirm := needsConfirmation intent
    let flags := (if needLoc then 1 else 0) + (if needConfirm then 2 else 0)
    let count := extractCount norm % 256
    let loc := extractLocationToken norm
    let payload :=
      (intent ++ "|U".data ++ natDigits urgency ++ "|F".data ++ natDigits flags
        ++ "|N".data ++ natDigits count ++ "|L".data ++ loc).take 95
    ⟨true, payload, intent, urgency, flags, count, loc⟩
  else ⟨false, text, "CHAT".data, 0, 0, 0, "unknown".data⟩

/-- Translation of LifeLinkLoRaNode::decodeTriageFromPayload: default
output is non-vital CHAT with wire_payload = body and location
"unknown"; a body containing "|U" is vital, its intent is the prefix
before the first pipe truncated to 11 bytes (INFO when there is no
pipe), and its urgency is strtoul of the text after "|U" cast to
uint8_t and then clamped at 3. -/
def decodeTriageFromPayload (body : List Char) : TriageOutput :=
  let base : TriageOutput :=
    ⟨false, body, "CHAT".data, 0, 0, 0, "unknown".data⟩
  if body = [] then base
  else
    match findSub body ("|U".data) with
    | none => base
    | some uPos =>
        let intent :=
          match findSub body ['|'] with
          | some sepPos => (body.take sepPos).take 11
          | none => "INFO".data
        let urg0 := strtoulC 10 (body.drop (uPos + 2)) % 256
        let urg := if 3 < urg0 then 3 else urg0
        ⟨true, body, intent, urg, 0, 0, "unknown".data⟩

/-! ## Mesh node data model (lifelink_lora_node.h) -/

/-- Protocol constants of lifelink_lora_node.h. -/
def kMembershipTimeoutMs : Nat := 15000

/-- Transmit-queue capacity. -/
def kMaxTxQueue : Nat := 12

/-- Default TTL of originated frames. -/
def kDefaultTtl : Nat := 4

/-- Gossip entries per heartbeat. -/
def kMaxGossipEntries : Nat := 12

/-- Message-history capacity. -/
def kMaxMessageHistory : Nat := 64

/-- The PacketType enum. -/
inductive PacketType where
  | kHeartbeat
  | kData
  | kAck
deriving Repr, DecidableEq

/-- The MemberEntry struct (membership/neighbor table slot). -/
structure MemberEntry where
  node_id : Nat
  last_seen_ms : Nat
  last_heartbeat_seq : Nat
  hop_seed : Nat
  hops_away : Nat
  via_node : Nat
  name : List Char
  used : Bool
deriving Repr, DecidableEq

/-- The SeenEntry struct (duplicate-suppressor slot). -/
structure SeenEntry where
  ptype : PacketType
  origin : Nat
  msg_id : Nat
  seen_at_ms : Nat
  used : Bool
deriving Repr, DecidableEq

/-- The GossipEntry struct (on the wire inside heartbeats). -/
structure GossipEntry where
  node_id : Nat
  seq : Nat
  hops_away : Nat
  name : List Char
deriving Repr, DecidableEq

/-- A formatted outbound frame.  The C code stores the snprintf-rendered
byte string; the embedding keeps the field values that snprintf writes
(the 220-byte truncation of the rendered text and the 120-byte budget of
the rendered gossip list are below the sizes any claim touches and are
not modelled). -/
inductive TxFrame where
  | heartbeat (src seq seed : Nat) (name : List Char) (ttl hops : Nat)
      (gossip : List GossipEntry)
  | data (src origin dst msg ttl hops : Nat) (body : List Char)
  | ack (src origin dst msg ttl hops : Nat)
deriving Repr, DecidableEq

/-- A transmit-queue slot (TxFrame struct of the header: payload plus
used flag). -/
structure TxSlot where
  payload : TxFrame
  used : Bool
deriving Repr, DecidableEq

/-- The transmit queue: 12 slots with head, tail and size counters. -/
structure TxQueue where
  slots : List TxSlot
  qhead : Nat
  qtail : Nat
  qsize : Nat
deriving Repr, DecidableEq

/-- The PendingData struct. -/
structure PendingEntry where
  msg_id : Nat
  dst : Nat
  sent_at_ms : Nat
  acked : Bool
  used : Bool
deriving Repr, DecidableEq

/-- The MessageHistoryEntry struct. -/
structure MessageHistoryEntry where
  direction : Char
  peer : Nat
  msg_id : Nat
  vital : Bool
  intent : List Char
  urgency : Nat
  body : List Char
deriving Repr, DecidableEq

/-- The history ring: 64 slots with head and count. -/
structure HistoryState where
  entries : List MessageHistoryEntry
  hhead : Nat
  hcount : Nat
deriving Repr, DecidableEq

/-- The mutable state of LifeLinkLoRaNode that the packet path touches.
Radio and serial objects, counters that only feed prints, and the
scheduler deadlines other than next_hop_at are omitted. -/
structure Node where
  node_id : Nat
  node_name : List Char
  heartbeat_seq : Nat
  local_msg_seq : Nat
  hop_seed : Nat
  hop_leader_id : Nat
  last_hop_seq : Nat
  current_hop_channel : Nat
  next_hop_at : Nat
  members : List MemberEntry
  seen : List SeenEntry
  txq : TxQueue
  pending : List PendingEntry
  history : HistoryState
  last_rx_body : List Char
  last_rx_triage : TriageOutput
deriving Repr, DecidableEq

/-- Map f over the first list element satisfying p (the update-and-break
pattern of the C table loops). -/
def updateFirst (p : α → Bool) (f : α → α) : List α → List α
  | [] => []
  | x :: xs => if p x then f x :: xs else x :: updateFirst p f xs

/-- The slot test of the member-table loops: a used slot holding nid. -/
def memberMatch (nid : Nat) (e : MemberEntry) : Bool :=
  e.used && e.node_id == nid

/-! ## Membership table (upsertMember) -/

/-- The refresh applied by upsertMember to the existing slot of the id:
last_seen_ms always, the sequence only when non-zero, hops/via only on
a strictly better hop count and via only when non-zero. -/
def upsertTouch (now seq hops via : Nat) (e : MemberEntry) : MemberEntry :=
  let e1 := { e with
    last_seen_ms := now,
    last_heartbeat_seq := if seq ≠ 0 then seq else e.last_heartbeat_seq }
  if 0 < hops && hops < e.hops_away then
    { e1 with hops_away := hops,
              via_node := if via ≠ 0 then via else e1.via_node }
  else e1

/-- The slot written by upsertMember into the first unused slot: hops
defaulting to 1, via defaulting to the id, name "unknown". -/
def upsertFresh (now nid seq hops via : Nat) : MemberEntry :=
  { node_id := nid, last_seen_ms := now, last_heartbeat_seq := seq,
    hop_seed := 0, hops_away := if 0 < hops then hops else 1,
    via_node := if via ≠ 0 then via else nid,
    name := "unknown".data, used := true }

/-- Translation of upsertMember(node_id, heartbeat_seq, hops_away,
via_node): refuse self; refresh the first used slot holding the id;
otherwise fill the first unused slot; otherwise do nothing. -/
def upsertMember (selfId now nid seq hops via : Nat)
    (members : List MemberEntry) : List MemberEntry :=
  if nid == selfId then members
  else if members.any (memberMatch nid) then
    updateFirst (memberMatch nid) (upsertTouch now seq hops via) members
  else if members.any (fun e => !e.used) then
    updateFirst (fun e => !e.used) (fun _ => upsertFresh now nid seq hops via)
      members
  else members

/-! ## Duplicate suppressor (hasSeenAndRemember) -/

/-- The first loop of hasSeenAndRemember: walk the slots in order,
ageing out every live slot older than MembershipTimeout, and stop with
true at the first live slot matching (type, origin, msg_id) — slots
past the match are not visited. -/
def seenScan (now : Nat) (t : PacketType) (origin msg : Nat) :
    List SeenEntry → Bool × List SeenEntry
  | [] => (false, [])
  | e :: rest =>
      if !e.used then
        let (f, r) := seenScan now t origin msg rest
        (f, e :: r)
      else if kMembershipTimeoutMs < sub32 now e.seen_at_ms then
        let (f, r) := seenScan now t origin msg rest
        (f, { e with used := false } :: r)
      else if e.ptype == t && e.origin == origin && e.msg_id == msg then
        (true, e :: rest)
      else
        let (f, r) := seenScan now t origin msg rest
        (f, e :: r)

/-- The oldest-slot search of hasSeenAndRemember: index of the first
slot with the strictly smallest seen_at_ms. -/
def oldestSeenIdx (l : List SeenEntry) : Nat :=
  match l with
  | [] => 0
  | e0 :: rest =>
      (rest.foldl (fun (acc : Nat × Nat × Nat) e =>
        if e.seen_at_ms < acc.2.2 then (acc.1 + 1, acc.1, e.seen_at_ms)
        else (acc.1 + 1, acc.2.1, acc.2.2)) (1, 0, e0.seen_at_ms)).2.1

/-- Translation of hasSeenAndRemember: the ageing scan, then on a miss
insert into the first unused slot or replace the oldest slot. -/
def hasSeenAndRemember (now : Nat) (t : PacketType) (origin msg : Nat)
    (seen : List SeenEntry) : Bool × List SeenEntry :=
  let (found, aged) := seenScan now t origin msg seen
  if found then (true, aged)
  else
    let newE : SeenEntry := ⟨t, origin, msg, now, true⟩
    if aged.any (fun e => !e.used) then
      (false, updateFirst (fun e => !e.used) (fun _ => newE) aged)
    else (false, aged.set (oldestSeenIdx aged) newE)

/-! ## Epidemic gossip (processGossipEntries, buildGossipEntries) -/

/-- The freshness-gated update of the gossip loop: apply when the
gossiped sequence is strictly newer, or equal with strictly fewer
hops; otherwise leave the slot alone. -/
def gossipTouch (via now newHops : Nat) (ge : GossipEntry) (m : MemberEntry) :
    MemberEntry :=
  if m.last_heartbeat_seq < ge.seq
      || (m.last_heartbeat_seq == ge.seq && newHops < m.hops_away) then
    { m with last_seen_ms := now, last_heartbeat_seq := ge.seq,
             hops_away := newHops, via_node := via,
             name := if ge.name ≠ [] then ge.name.take 23 else m.name }
  else m

/-- The name overwrite of the gossip-insert path. -/
def gossipNameFix (ge : GossipEntry) (m : MemberEntry) : MemberEntry :=
  { m with name := if ge.name ≠ [] then ge.name.take 23 else m.name }

/-- One iteration of the processGossipEntries loop on gossip entry ge
received in a heartbeat sent by via_node: skip self; for a present
entry apply the freshness-gated update; for an absent entry insert
through upsertMember and then overwrite the name when the gossiped
name is non-empty.  new_hops is the uint8_t value hops_away + 1. -/
def processOneGossip (selfId via now : Nat) (members : List MemberEntry)
    (ge : GossipEntry) : List MemberEntry :=
  if ge.node_id == selfId % 65536 then members
  else
    let newHops := (ge.hops_away + 1) % 256
    if members.any (memberMatch ge.node_id) then
      updateFirst (memberMatch ge.node_id) (gossipTouch via now newHops ge)
        members
    else
      let m1 := upsertMember selfId now ge.node_id ge.seq newHops via members
      updateFirst (memberMatch ge.node_id) (gossipNameFix ge) m1

/-- Translation of processGossipEntries: the loop over the received
entries. -/
def processGossipEntries (selfId via now : Nat) (entries : List GossipEntry)
    (members : List MemberEntry) : List MemberEntry :=
  entries.foldl (fun ms ge => processOneGossip selfId via now ms ge) members

/-- Stable insertion into an age-sorted list, placing the new element
after every element whose age is not strictly larger — exactly the
shift loop of the insertion sort of buildGossipEntries. -/
def insertAge (x : Nat × MemberEntry) :
    List (Nat × MemberEntry) → List (Nat × MemberEntry)
  | [] => [x]
  | y :: ys => if x.1 < y.1 then x :: y :: ys else y :: insertAge x ys

/-- Translation of buildGossipEntries: self first (hops 0, current
heartbeat sequence), then the live members sorted by ascending age
(stable insertion sort), truncated to max_entries; names are cut to the
15 bytes of the GossipEntry name field. -/
def buildGossipEntries (selfId selfSeq : Nat) (selfName : List Char)
    (now : Nat) (members : List MemberEntry) (maxEntries : Nat) :
    List GossipEntry :=
  if maxEntries = 0 then []
  else
    let selfE : GossipEntry := ⟨selfId % 65536, selfSeq, 0, selfName.take 15⟩
    let active := members.filter
      (fun m => m.used && sub32 now m.last_seen_ms ≤ kMembershipTimeoutMs)
    let sorted := active.foldl
      (fun acc m => insertAge (sub32 now m.last_seen_ms, m) acc) []
    selfE :: (sorted.take (maxEntries - 1)).map
      (fun p => ⟨p.2.node_id, p.2.last_heartbeat_seq, p.2.hops_away, p.2.name.take 15⟩)

/-! ## Frequency-hop scheduler (selectHopLeader, maybeApplyFrequencyHop) -/

/-- Translation of selectHopLeader: smallest id among self and the live
members. -/
def selectHopLeader (now selfId : Nat) (members : List MemberEntry) : Nat :=
  members.foldl (fun leader m =>
    if m.used && sub32 now m.last_seen_ms ≤ kMembershipTimeoutMs
        && m.node_id < leader then m.node_id else leader) (selfId % 65536)

/-- Translation of maybeApplyFrequencyHop.  setFrequency is treated as
succeeding, so a channel change always lands in current_hop_channel. -/
def maybeApplyFrequencyHop (n : Node) (now : Nat) (force : Bool) : Node :=
  if !force && now < n.next_hop_at then n
  else
    let leader := selectHopLeader now n.node_id n.members
    let n1 := { n with next_hop_at := (now + 5000) % 4294967296,
                       hop_leader_id := leader }
    let seedSeq :=
      if leader != n.node_id % 65536 then
        match n.members.find? (fun m => m.used && m.node_id == leader) with
        | some m => (if m.hop_seed ≠ 0 then m.hop_seed else n.hop_seed,
                     m.last_heartbeat_seq)
        | none => (n.hop_seed, n.heartbeat_seq)
      else (n.hop_seed, n.heartbeat_seq)
    if !force && seedSeq.2 == n.last_hop_seq then n1
    else
      let n2 := { n1 with last_hop_seq := seedSeq.2 }
      let ch := computeHopChannelIndex seedSeq.1 seedSeq.2
      if !force && ch == n.current_hop_channel then n2
      else { n2 with current_hop_channel := ch }

/-! ## Transmit queue (enqueueFrame, dequeueFrame) -/

/-- Translation of enqueueFrame: full queue refuses and changes
nothing; otherwise the frame lands at tail, tail advances modulo the
capacity and size grows. -/
def enqueueFrame (q : TxQueue) (f : TxFrame) : Bool × TxQueue :=
  if kMaxTxQueue ≤ q.qsize then (false, q)
  else
    (true, { slots := q.slots.set q.qtail ⟨f, true⟩,
             qhead := q.qhead,
             qtail := (q.qtail + 1) % kMaxTxQueue,
             qsize := q.qsize + 1 })

/-- Translation of dequeueFrame: empty queue refuses; otherwise the
head frame is returned, its slot marked unused, head advances and size
shrinks. -/
def dequeueFrame (q : TxQueue) : Option TxFrame × TxQueue :=
  if q.qsize = 0 then (none, q)
  else
    let slot := q.slots.getD q.qhead ⟨TxFrame.ack 0 0 0 0 0 0, false⟩
    (some slot.payload,
     { slots := q.slots.set q.qhead ⟨slot.payload, false⟩,
       qhead := (q.qhead + 1) % kMaxTxQueue,
       qtail := q.qtail,
       qsize := q.qsize - 1 })

/-- Enqueue on a node, discarding the Bool result exactly as the packet
handlers do. -/
def nodeEnqueue (n : Node) (f : TxFrame) : Node :=
  { n with txq := (enqueueFrame n.txq f).2 }

/-! ## Pending data and history -/

/-- Translation of addPendingData: fill the first unused slot, if
any. -/
def addPendingData (now msg dst : Nat) (l : List PendingEntry) :
    List PendingEntry :=
  updateFirst (fun e => !e.used) (fun _ => ⟨msg, dst, now, false, true⟩) l

/-- Translation of ackPendingData: mark the first live unacked slot
with this msg_id acked and free it. -/
def ackPendingData (msg : Nat) (l : List PendingEntry) : List PendingEntry :=
  updateFirst (fun e => e.used && !e.acked && e.msg_id == msg)
    (fun e => { e with acked := true, used := false }) l

/-- Translation of appendHistory: write at head (intent cut to 11
bytes, body cut to 51), advance head modulo 64, grow count up to 64. -/
def appendHistory (h : HistoryState) (direction : Char) (peer msg : Nat)
    (body : List Char) (tri : Option TriageOutput) : HistoryState :=
  let e : MessageHistoryEntry :=
    { direction := direction, peer := peer, msg_id := msg,
      vital := match tri with | some t => t.is_vital | none => false,
      intent := (match tri with | some t => t.intent | none => "CHAT".data).take 11,
      urgency := match tri with | some t => t.urgency | none => 0,
      body := body.take 51 }
  { entries := h.entries.set h.hhead e,
    hhead := (h.hhead + 1) % kMaxMessageHistory,
    hcount := if h.hcount < kMaxMessageHistory then h.hcount + 1 else h.hcount }

/-! ## Flood relay and packet handlers -/

/-- The frame constructed by relayPacket: nothing when ttl is 0,
otherwise a DATA or ACK frame with src = self, next_ttl = ttl - 1 and
next_hops = hops + 1, both computed on uint8_t. -/
def relayFrame (selfId : Nat) (t : PacketType) (origin dst msg ttl hops : Nat)
    (body : List Char) : Option TxFrame :=
  if ttl = 0 then none
  else
    let nextTtl := (ttl - 1) % 256
    let nextHops := (hops + 1) % 256
    if t == PacketType.kData then
      some (.data selfId origin dst msg nextTtl nextHops body)
    else some (.ack selfId origin dst msg nextTtl nextHops)

/-- Translation of relayPacket: construct the relay frame (when ttl is
positive) and enqueue it. -/
def relayPacket (n : Node) (t : PacketType) (origin dst msg ttl hops : Nat)
    (body : List Char) : Node :=
  match relayFrame n.node_id t origin dst msg ttl hops body with
  | some f => nodeEnqueue n f
  | none => n

/-- effective_hops of handleHeartbeat: 1 for a direct heartbeat, else
the uint8_t value hops + 1. -/
def hbEffHops (hops : Nat) : Nat :=
  if hops = 0 then 1 else (hops + 1) % 256

/-- The name/seed fixup handleHeartbeat applies to the slot of the
heartbeat origin: name overwritten when non-empty (cut to the 23-byte
buffer), hop seed overwritten when non-zero. -/
def hbFix (seed : Nat) (name : List Char) (m : MemberEntry) : MemberEntry :=
  let m1 := if name ≠ [] then { m with name := name.take 23 } else m
  if seed ≠ 0 then { m1 with hop_seed := seed } else m1

/-- The direct-neighbor update of handleHeartbeat (lines 706..716):
upsert the heartbeat origin with effective_hops and via = from, then
fix up name and seed on the found slot. -/
def hbApplyDirect (selfId now src seq seed : Nat) (name : List Char)
    (hops : Nat) (members : List MemberEntry) : List MemberEntry :=
  let m1 := upsertMember selfId now src seq (hbEffHops hops) src members
  updateFirst (memberMatch src) (hbFix seed name) m1

/-- Parse one "id:name:seq:hops" gossip token: the first four nonempty
colon-separated fields, id in hex, sequence and hops in decimal, name
cut to the 15 bytes of the GossipEntry buffer; fewer than four fields
yields nothing. -/
def parseGossipEntry (token : List Char) : Option GossipEntry :=
  match tokSplit ':' token with
  | id_s :: n_s :: s_s :: h_s :: _ =>
      some ⟨strtoulC 16 id_s % 65536, strtoulC 10 s_s % 4294967296,
            strtoulC 10 h_s % 256, n_s.take 15⟩
  | _ => none

/-- Parse the gossip payload following "G ": the text is copied into a
120-byte buffer (so cut to 119 bytes), split at semicolons, and the
first 12 tokens that parse become entries. -/
def parseGossipStr (gs : List Char) : List GossipEntry :=
  ((tokSplit ';' (gs.take 119)).filterMap parseGossipEntry).take kMaxGossipEntries

/-- The relay frame constructed by handleHeartbeat when ttl is
positive: original origin and sequence, printed ttl - 1 and hops + 1
(snprintf of int values, so hops + 1 is not reduced), name replaced by
"unknown" when empty, and the gossip rebuilt from this node. -/
def hbRelayFrame (src seq seed : Nat) (name : List Char) (ttl hops : Nat)
    (gossip : List GossipEntry) : Option TxFrame :=
  if 0 < ttl then
    some (.heartbeat src seq seed (if name ≠ [] then name else "unknown".data)
      (ttl - 1) (hops + 1) gossip)
  else none

/-- Translation of handleHeartbeat: drop own frames, dedup on
(Heartbeat, from, seq mod 2^16), apply the direct upsert, merge the
gossip entries, force a frequency-hop re-evaluation, and relay with
decremented ttl using gossip rebuilt from our table. -/
def handleHeartbeat (n : Node) (now src seq seed : Nat) (name : List Char)
    (ttl hops : Nat) (gossipStr : Option (List Char)) : Node :=
  if src == n.node_id then n
  else
    let scan := hasSeenAndRemember now .kHeartbeat src (seq % 65536) n.seen
    let n1 := { n with seen := scan.2 }
    if scan.1 then n1
    else
      let members1 := hbApplyDirect n.node_id now src seq seed name hops n.members
      let members2 :=
        match gossipStr with
        | some (g0 :: g1 :: rest) =>
            if g0 == 'G' && g1 == ' ' then
              let entries := parseGossipStr rest
              if entries ≠ [] then
                processGossipEntries n.node_id src now entries members1
              else members1
            else members1
        | _ => members1
      let n2 := maybeApplyFrequencyHop { n1 with members := members2 } now true
      match hbRelayFrame src seq seed name ttl hops
          (buildGossipEntries n2.node_id n2.heartbeat_seq n2.node_name now
            n2.members kMaxGossipEntries) with
      | some f => nodeEnqueue n2 f
      | none => n2

/-- Translation of handleData: upsert sender and (when different from
self) origin, dedup on (Data, origin, msg_id); frames for us decode the
triage payload, land in history, and answer with an ACK; other frames
are relayed while ttl allows. -/
def handleData (n : Node) (now src origin dst msg ttl hops : Nat)
    (body : List Char) : Node :=
  let members1 := upsertMember n.node_id now src 0 1 src n.members
  let members2 :=
    if origin != n.node_id then upsertMember n.node_id now origin 0 1 0 members1
    else members1
  let scan := hasSeenAndRemember now .kData origin msg n.seen
  let n1 := { n with members := members2, seen := scan.2 }
  if scan.1 then n1
  else if dst == n.node_id then
    let tri := decodeTriageFromPayload body
    let n2 := { n1 with
      last_rx_triage := tri,
      last_rx_body := body.take 51,
      history := appendHistory n1.history 'R' origin msg body (some tri) }
    let ackOrigin := n.node_id % 65536
    let n3 := { n2 with seen := (hasSeenAndRemember now .kAck ackOrigin msg n2.seen).2 }
    nodeEnqueue n3 (.ack n.node_id ackOrigin origin msg kDefaultTtl 0)
  else relayPacket n1 .kData origin dst msg ttl hops body

/-- Translation of handleAck: upserts and dedup as for DATA; an ACK for
us clears the pending entry, others are relayed while ttl allows. -/
def handleAck (n : Node) (now src origin dst msg ttl hops : Nat) : Node :=
  let members1 := upsertMember n.node_id now src 0 1 src n.members
  let members2 :=
    if origin != n.node_id then upsertMember n.node_id now origin 0 1 0 members1
    else members1
  let scan := hasSeenAndRemember now .kAck origin msg n.seen
  let n1 := { n with members := members2, seen := scan.2 }
  if scan.1 then n1
  else if dst == n.node_id then
    { n1 with pending := ackPendingData msg n1.pending }
  else relayPacket n1 .kAck origin dst msg ttl hops []

/-! ## Packet parser (parseAndHandlePacket) -/

/-- One strtok_r(NULL, "|") step: skip leading pipes, take the token,
consume the single pipe that terminated it.  none when only pipes (or
nothing) remain. -/
def nextTok (cs : List Char) : Option (List Char × List Char) :=
  match cs.dropWhile (fun c => c == '|') with
  | [] => none
  | c :: rest =>
      let tok := c :: rest.takeWhile (fun d => d != '|')
      let r1 := match rest.dropWhile (fun d => d != '|') with
        | [] => []
        | _ :: r => r
      some (tok, r1)

/-- A strtok step whose token may be missing, yielding the default of
the C code (NULL checked at use). -/
def nextTokOpt (cs : List Char) : Option (List Char) × List Char :=
  match nextTok cs with
  | some (t, r) => (some t, r)
  | none => (none, cs)

/-- Translation of parseAndHandlePacket.  The packet is copied into the
220-byte buffer (cut to 219 bytes); the leading token selects H, D or A
by its first character; for H only from and seq are required and the
remaining fields default (seed 0, name empty, ttl 0, hops 0, gossip
absent); for D and A all six header fields must tokenize, the DATA body
being the raw rest of the buffer after the hops token. -/
def parseAndHandlePacket (n : Node) (now : Nat) (input : List Char) : Node :=
  let copyStr := input.take 219
  match nextTok copyStr with
  | none => n
  | some (t, r1) =>
      match t with
      | [] => n
      | tc :: _ =>
          if tc == 'H' then
            match nextTok r1 with
            | none => n
            | some (from_s, r2) =>
                match nextTok r2 with
                | none => n
                | some (seq_s, r3) =>
                    let (seed_s, r4) := nextTokOpt r3
                    let (name_s, r5) := nextTokOpt r4
                    let (ttl_s, r6) := nextTokOpt r5
                    let (hops_s, r7) := nextTokOpt r6
                    let gossip_s : Option (List Char) :=
                      if r7 = [] then none else some r7
                    let src := strtoulC 16 from_s % 65536
                    let seq := strtoulC 10 seq_s % 4294967296
                    let seed := match seed_s with
                      | some s => strtoulC 16 s % 4294967296
                      | none => 0
                    let ttl := match ttl_s with
                      | some s => strtoulC 10 s % 256
                      | none => 0
                    let hops := match hops_s with
                      | some s => strtoulC 10 s % 256
                      | none => 0
                    handleHeartbeat n now src seq seed (name_s.getD []) ttl hops
                      gossip_s
          else
            match nextTok r1 with
            | none => n
            | some (from_s, r2) =>
                match nextTok r2 with
                | none => n
                | some (origin_s, r3) =>
                    match nextTok r3 with
                    | none => n
                    | some (dst_s, r4) =>
                        match nextTok r4 with
                        | none => n
                        | some (msg_s, r5) =>
                            match nextTok r5 with
                            | none => n
                            | some (ttl_s, r6) =>
                                match nextTok r6 with
                                | none => n
                                | some (hops_s, r7) =>
                                    let src := strtoulC 16 from_s % 65536
                                    let origin := strtoulC 16 origin_s % 65536
                                    let dst := strtoulC 16 dst_s % 65536
                                    let msg := strtoulC 10 msg_s % 65536
                                    let ttl := strtoulC 10 ttl_s % 256
                                    let hops := strtoulC 10 hops_s % 256
                                    if tc == 'D' then
                                      handleData n now src origin dst msg ttl
                                        hops r7
                                    else if tc == 'A' then
                                      handleAck n now src origin dst msg ttl hops
                                    else n

/-! ## Initial node state (begin) -/

/-- The zero-initialized member slot. -/
def initMember : MemberEntry := ⟨0, 0, 0, 0, 0, 0, [], false⟩

/-- The zero-initialized seen slot (the type byte of an unused slot is
never read). -/
def initSeen : SeenEntry := ⟨.kHeartbeat, 0, 0, 0, false⟩

/-- The node state right after begin(): empty tables, fresh counters,
name and seed as computed from the node id. -/
def initNode (id seed : Nat) (name : List Char) : Node :=
  { node_id := id, node_name := name, heartbeat_seq := 0, local_msg_seq := 0,
    hop_seed := seed, hop_leader_id := id % 65536, last_hop_seq := 0,
    current_hop_channel := 0, next_hop_at := 0,
    members := List.replicate 24 initMember,
    seen := List.replicate 64 initSeen,
    txq := ⟨List.replicate 12 ⟨TxFrame.ack 0 0 0 0 0 0, false⟩, 0, 0, 0⟩,
    pending := List.replicate 12 ⟨0, 0, 0, false, false⟩,
    history := ⟨List.replicate 64 ⟨' ', 0, 0, false, [], 0, []⟩, 0, 0⟩,
    last_rx_body := [],
    last_rx_triage := ⟨false, [], [], 0, 0, 0, []⟩ }

/-! ## Observation helpers -/

/-- The ttl field of a formatted frame. -/
def frameTtl : TxFrame → Nat
  | .heartbeat _ _ _ _ ttl _ _ => ttl
  | .data _ _ _ _ ttl _ _ => ttl
  | .ack _ _ _ _ ttl _ => ttl

/-- The hops field of a formatted frame. -/
def frameHops : TxFrame → Nat
  | .heartbeat _ _ _ _ _ hops _ => hops
  | .data _ _ _ _ _ hops _ => hops
  | .ack _ _ _ _ _ hops => hops

/-- The member-table entry holding a node id: the first used slot with
that id, the slot every table loop stops at. -/
def findMember (members : List MemberEntry) (nid : Nat) : Option MemberEntry :=
  members.find? (memberMatch nid)

/-! ## Concrete states and operation sequences used by the theorems -/

/-- An abstract operation on the transmit queue. -/
inductive QueueOp where
  | enq (f : TxFrame)
  | deq
deriving Repr

/-- Apply one queue operation. -/
def queueStep (q : TxQueue) : QueueOp → TxQueue
  | .enq f => (enqueueFrame q f).2
  | .deq => (dequeueFrame q).2

/-- Run a sequence of queue operations. -/
def runQueueOps (q : TxQueue) (ops : List QueueOp) : TxQueue :=
  ops.foldl queueStep q

/-- The queue state at begin(): empty slots, zero counters. -/
def initTxQueue : TxQueue :=
  ⟨List.replicate 12 ⟨TxFrame.ack 0 0 0 0 0 0, false⟩, 0, 0, 0⟩

/-- A full queue (12 occupied slots). -/
def fullTxQueue : TxQueue :=
  ⟨List.replicate 12 ⟨TxFrame.ack 0 0 0 0 0 0, true⟩, 0, 0, 12⟩

/-- The C7 counterexample text: two MEDIC phrases plus seventy
repetitions of "ab". -/
def c7Text : List Char :=
  ("medic doctor ".data) ++ (List.replicate 70 ("ab".data)).flatten

/-- A live matching duplicate-suppressor slot: used, within
MembershipTimeout of now, and holding the triple. -/
def liveMatchB (now : Nat) (t : PacketType) (origin msg : Nat)
    (e : SeenEntry) : Bool :=
  e.used && decide (sub32 now e.seen_at_ms ≤ kMembershipTimeoutMs)
    && e.ptype == t && e.origin == origin && e.msg_id == msg

/-- What the amended C3 says a DATA or ACK receipt does to the existing
slot of the sender: refresh last_seen_ms, and lower hops_away to 1 with
via_node = the sender only when the stored hop count was larger. -/
def directUpdateEntry (now src : Nat) (e : MemberEntry) : MemberEntry :=
  if 1 < e.hops_away then
    { e with last_seen_ms := now, hops_away := 1, via_node := src }
  else { e with last_seen_ms := now }

/-- What the amended C3 says a DATA or ACK receipt writes into a free
slot for an unknown sender. -/
def freshDirectEntry (now src : Nat) : MemberEntry :=
  ⟨src, now, 0, 0, 1, src, "unknown".data, true⟩

/-- What the amended C3 says a heartbeat does to the existing slot of
its origin: refresh last_seen_ms, take the sequence when non-zero,
lower hops_away to effective_hops = max(1 for direct, (hops + 1) mod
256) only when strictly better (moving via_node to the sender), and
overwrite name / hop seed only when non-empty / non-zero. -/
def hbUpdateEntry (now src seq seed : Nat) (name : List Char) (hops : Nat)
    (e : MemberEntry) : MemberEntry :=
  { e with
    last_seen_ms := now,
    last_heartbeat_seq := if seq ≠ 0 then seq else e.last_heartbeat_seq,
    hops_away := if 0 < hbEffHops hops ∧ hbEffHops hops < e.hops_away then
        hbEffHops hops else e.hops_away,
    via_node := if 0 < hbEffHops hops ∧ hbEffHops hops < e.hops_away ∧ src ≠ 0
        then src else e.via_node,
    name := if name ≠ [] then name.take 23 else e.name,
    hop_seed := if seed ≠ 0 then seed else e.hop_seed }

/-- What the amended C3 says a heartbeat writes into a free slot for an
unknown origin. -/
def freshHbEntry (now src seq seed : Nat) (name : List Char) (hops : Nat) :
    MemberEntry :=
  { node_id := src, last_seen_ms := now, last_heartbeat_seq := seq,
    hop_seed := if seed ≠ 0 then seed else 0,
    hops_away := if 0 < hbEffHops hops then hbEffHops hops else 1,
    via_node := src,
    name := if name ≠ [] then name.take 23 else "unknown".data,
    used := true }

/-- What the amended C4 says a winning gossip entry does to the
existing slot of its subject. -/
def gossipUpdatedEntry (via now : Nat) (ge : GossipEntry) (e : MemberEntry) :
    MemberEntry :=
  { e with last_seen_ms := now, last_heartbeat_seq := ge.seq,
           hops_away := (ge.hops_away + 1) % 256, via_node := via,
           name := if ge.name ≠ [] then ge.name.take 23 else e.name }

/-- What the amended C4 says a gossip entry about an unknown subject
writes into a free slot. -/
def freshGossipEntry (now via : Nat) (ge : GossipEntry) : MemberEntry :=
  { node_id := ge.node_id, last_seen_ms := now, last_heartbeat_seq := ge.seq,
    hop_seed := 0,
    hops_away := if 0 < (ge.hops_away + 1) % 256 then (ge.hops_away + 1) % 256
        else 1,
    via_node := via,
    name := if ge.name ≠ [] then ge.name.take 23 else "unknown".data,
    used := true }

/-- A member table with all 24 slots occupied (ids 100..123), for the
C4 counterexample. -/
def fullMembers : List MemberEntry :=
  (List.range 24).map (fun i => ⟨100 + i, 0, 0, 0, 1, 1, [], true⟩)

/-- The gossip entry of the C4 counterexample: subject 50, absent from
fullMembers. -/
def c4Entry : GossipEntry := ⟨50, 7, 1, ("Bob".data)⟩

/-- A freshly started node used by the concrete counterexamples. -/
def exNode : Node := initNode 1 3735928559 ("Node-0001".data)

/-- A node whose duplicate suppressor holds live (Data, 2, 9) and
(Ack, 2, 9) entries recorded at time 1000, for the C2 witness. -/
def c2Node : Node :=
  { exNode with seen :=
      (⟨PacketType.kData, 2, 9, 1000, true⟩ : SeenEntry) ::
      (⟨PacketType.kAck, 2, 9, 1000, true⟩ : SeenEntry) ::
      List.replicate 62 initSeen }

/-! ## C8: channel computation -/

/-- C8: computeHopChannelIndex equals the spec formula ((seed XOR
(seq * 1103515245 + 12345)) XOR (... >> 13)) mod N_channels with all
arithmetic wrapping modulo 2^32, it is pure (equal inputs give equal
results), and its value lies below the channel count. -/
theorem computeHopChannelIndex_matches_spec (seed seq : Nat)
    (hs : seed < 4294967296) (hq : seq < 4294967296) :
    computeHopChannelIndex seed seq = channelIndexSpec seed seq
    ∧ computeHopChannelIndex seed seq < kHopChannelCount
    ∧ (∀ seed2 seq2, seed2 = seed → seq2 = seq →
        computeHopChannelIndex seed2 seq2 = computeHopChannelIndex seed seq) := by
  refine ⟨rfl, ?_, ?_⟩
  · exact Nat.mod_lt _ (by norm_num [kHopChannelCount])
  · intro seed2 seq2 h1 h2
    rw [h1, h2]

/-- Witness for C8 at seed 0xDEADBEEF, seq 42. -/
theorem computeHopChannelIndex_matches_spec_w :
    computeHopChannelIndex 3735928559 42 = channelIndexSpec 3735928559 42
    ∧ computeHopChannelIndex 3735928559 42 < kHopChannelCount := by
  have h := computeHopChannelIndex_matches_spec 3735928559 42 (by norm_num) (by norm_num)
  exact ⟨h.1, h.2.1⟩

/-! ## C9: transmit-queue capacity -/

theorem queueStep_size_le (q : TxQueue) (op : QueueOp)
    (h : q.qsize ≤ kMaxTxQueue) : (queueStep q op).qsize ≤ kMaxTxQueue := by
  cases op with
  | enq f =>
      by_cases hq : kMaxTxQueue ≤ q.qsize
      · simpa [queueStep, enqueueFrame, hq] using h
      · simp only [queueStep, enqueueFrame, if_neg hq]
        simp only [kMaxTxQueue] at hq ⊢
        omega
  | deq =>
      by_cases hq : q.qsize = 0
      · simp [queueStep, dequeueFrame, hq, h]
      · simp only [queueStep, dequeueFrame, if_neg hq]
        simp only [kMaxTxQueue] at h ⊢
        omega

/-- C9: starting from the initial queue, no sequence of enqueue and
dequeue operations pushes the size past the capacity 12, and an
enqueue on a full queue answers false and returns the queue with
slots, head, tail and size untouched. -/
theorem txQueue_capacity :
    (∀ ops : List QueueOp, (runQueueOps initTxQueue ops).qsize ≤ kMaxTxQueue)
    ∧ (∀ (q : TxQueue) (f : TxFrame), kMaxTxQueue ≤ q.qsize →
        enqueueFrame q f = (false, q)) := by
  constructor
  · have gen : ∀ (ops : List QueueOp) (q : TxQueue), q.qsize ≤ kMaxTxQueue →
        (runQueueOps q ops).qsize ≤ kMaxTxQueue := by
      intro ops
      induction ops with
      | nil => intro q h; exact h
      | cons op rest ih =>
          intro q h
          exact ih _ (queueStep_size_le q op h)
    intro ops
    exact gen ops initTxQueue (by norm_num [initTxQueue, kMaxTxQueue])
  · intro q f h
    simp [enqueueFrame, h]

/-- Witness for C9: two operations stay within capacity, and an enqueue
on the full queue fails cleanly. -/
theorem txQueue_capacity_w :
    (runQueueOps initTxQueue [QueueOp.enq (TxFrame.ack 1 1 2 3 4 0), QueueOp.deq]).qsize
        ≤ kMaxTxQueue
    ∧ enqueueFrame fullTxQueue (TxFrame.ack 1 1 2 3 4 0) = (false, fullTxQueue) :=
  ⟨txQueue_capacity.1 _,
   txQueue_capacity.2 fullTxQueue _ (by norm_num [fullTxQueue, kMaxTxQueue])⟩

/-! ## C6: non-vital triage output -/

/-- C6 counterexample: on an input the vital tree rejects, the returned
wire_payload is the input text (not empty) and the returned location is
"unknown" (not empty or zero), contradicting the claim that every field
except is_vital and intent is zero. -/
theorem runTriage_nonvital_cex :
    (runTriage (fun _ => 0) (fun _ => 0) (fun _ => 0) ("hi".data)).wire_payload
        = "hi".data
    ∧ ("hi".data ≠ ([] : List Char))
    ∧ (runTriage (fun _ => 0) (fun _ => 0) (fun _ => 0) ("hi".data)).location
        = "unknown".data
    ∧ ("unknown".data ≠ ([] : List Char)) := by
  refine ⟨rfl, by decide, rfl, by decide⟩

/-- C6 amended: when the vital tree answers 0, runTriage returns
is_vital = false, intent = CHAT, urgency = flags = count = 0,
wire_payload = the input text, and location = "unknown". -/
theorem runTriage_nonvital (vp ip up : (Nat → ℚ) → Int) (text : List Char)
    (h : vp (buildVector text) = 0) :
    runTriage vp ip up text =
      ⟨false, text, "CHAT".data, 0, 0, 0, "unknown".data⟩ := by
  simp [runTriage, h]

/-- Witness for C6 with the constant-0 vital tree on a concrete text. -/
theorem runTriage_nonvital_w :
    runTriage (fun _ => 0) (fun _ => 0) (fun _ => 0) ("ok all good".data)
      = ⟨false, ("ok all good".data), "CHAT".data, 0, 0, 0, "unknown".data⟩ :=
  runTriage_nonvital _ _ _ _ rfl

/-! ## C10: received-payload triage decoding -/

/-- C10 counterexample: the body "X|U256" is decoded with urgency 0
(strtoul cast to uint8_t wraps 256 to 0 before the clamp), not the
claimed clamp-to-3 of the decimal value 256. -/
theorem decodeTriage_urgency_cex :
    (decodeTriageFromPayload ("X|U256".data)).urgency ≠ min 256 3 := by
  decide

theorem containsSub_iff_findSub (hay pat : List Char) :
    containsSub hay pat = (findSub hay pat).isSome := by
  induction hay with
  | nil =>
      by_cases h : leadMatch pat [] <;> simp [containsSub, findSub, h]
  | cons c cs ih =>
      by_cases h : leadMatch pat (c :: cs) <;>
        simp [containsSub, findSub, h, ih]

theorem contains_pipe_of_pipeU (body : List Char)
    (h : containsSub body ("|U".data) = true) :
    containsSub body ['|'] = true := by
  induction body with
  | nil => simpa [containsSub, leadMatch] using h
  | cons c cs ih =>
      simp only [containsSub, Bool.or_eq_true] at h ⊢
      rcases h with h | h
      · left
        simp only [leadMatch, Bool.and_eq_true] at h
        simp [leadMatch, h.1]
      · right
        exact ih h

theorem clamp3_eq_min (u : Nat) : (if 3 < u then 3 else u) = min u 3 := by
  by_cases h : 3 < u
  · simp [h, Nat.min_eq_right (by omega : 3 ≤ u)]
  · simp [h, Nat.min_eq_left (by omega : u ≤ 3)]

theorem decodeTriage_eq_of_none (body : List Char)
    (hfs : findSub body ("|U".data) = none) :
    decodeTriageFromPayload body
      = ⟨false, body, "CHAT".data, 0, 0, 0, "unknown".data⟩ := by
  by_cases hb : body = []
  · subst hb; rfl
  · unfold decodeTriageFromPayload
    rw [if_neg hb, hfs]

theorem decodeTriage_eq_of_some (body : List Char) (uPos sepPos : Nat)
    (hb : body ≠ []) (hfs : findSub body ("|U".data) = some uPos)
    (hsep : findSub body ['|'] = some sepPos) :
    decodeTriageFromPayload body
      = ⟨true, body, (body.take sepPos).take 11,
          min (strtoulC 10 (body.drop (uPos + 2)) % 256) 3, 0, 0,
          "unknown".data⟩ := by
  unfold decodeTriageFromPayload
  rw [if_neg hb, hfs, hsep]
  simp [clamp3_eq_min]

/-- C10 amended: a received DATA body is decoded vital exactly when it
contains "|U"; a body without "|U" decodes to non-vital CHAT with
urgency 0; a body with "|U" decodes vital, its intent is the prefix
before the first pipe cut to 11 bytes, and its urgency is the decimal
value after the first "|U" reduced modulo 256 (the uint8_t cast) and
then clamped at 3. -/
theorem decodeTriage_amended (body : List Char) :
    ((decodeTriageFromPayload body).is_vital = containsSub body ("|U".data))
    ∧ (containsSub body ("|U".data) = false →
        decodeTriageFromPayload body
          = ⟨false, body, "CHAT".data, 0, 0, 0, "unknown".data⟩)
    ∧ (containsSub body ("|U".data) = true →
        ∃ uPos sepPos, findSub body ("|U".data) = some uPos
          ∧ findSub body ['|'] = some sepPos
          ∧ (decodeTriageFromPayload body).intent = (body.take sepPos).take 11
          ∧ (decodeTriageFromPayload body).urgency
              = min (strtoulC 10 (body.drop (uPos + 2)) % 256) 3) := by
  have hiff := containsSub_iff_findSub body ("|U".data)
  cases hfs : findSub body ("|U".data) with
  | none =>
      have hcs : containsSub body ("|U".data) = false := by
        rw [hiff, hfs]; rfl
      have hdec := decodeTriage_eq_of_none body hfs
      refine ⟨?_, fun _ => hdec, ?_⟩
      · rw [hcs, hdec]
      · intro h; rw [hcs] at h; exact absurd h (by simp)
  | some uPos =>
      have hcs : containsSub body ("|U".data) = true := by
        rw [hiff, hfs]; rfl
      have hb : body ≠ [] := by
        intro hx; subst hx
        simp [findSub, leadMatch] at hfs
      have hpipe : containsSub body ['|'] = true :=
        contains_pipe_of_pipeU body hcs
      rw [containsSub_iff_findSub] at hpipe
      cases hsep : findSub body ['|'] with
      | none => rw [hsep] at hpipe; exact absurd hpipe (by simp)
      | some sepPos =>
          have hdec := decodeTriage_eq_of_some body uPos sepPos hb hfs hsep
          refine ⟨?_, ?_, ?_⟩
          · rw [hcs, hdec]
          · intro h; rw [hcs] at h; exact absurd h (by simp)
          · intro _
            exact ⟨uPos, sepPos, rfl, rfl, by rw [hdec], by rw [hdec]⟩

/-- Witness for C10 on the body "MEDIC|U2|F1|N0|Lcamp". -/
theorem decodeTriage_amended_w :
    ∃ uPos sepPos,
      findSub ("MEDIC|U2|F1|N0|Lcamp".data) ("|U".data) = some uPos
      ∧ findSub ("MEDIC|U2|F1|N0|Lcamp".data) ['|'] = some sepPos
      ∧ (decodeTriageFromPayload ("MEDIC|U2|F1|N0|Lcamp".data)).intent
          = (("MEDIC|U2|F1|N0|Lcamp".data).take sepPos).take 11
      ∧ (decodeTriageFromPayload ("MEDIC|U2|F1|N0|Lcamp".data)).urgency
          = min (strtoulC 10 (("MEDIC|U2|F1|N0|Lcamp".data).drop (uPos + 2)) % 256) 3 :=
  (decodeTriage_amended ("MEDIC|U2|F1|N0|Lcamp".data)).2.2 (by decide)

/-! ## C1: relay ttl and hops -/

/-- C1 counterexample: a DATA relay received with ttl 1 and hops 255
is emitted with hops 0 (the uint8_t wrap of hops + 1), not hops + 1 =
256 as the claim states. -/
theorem relay_ttl_hops_cex :
    (relayFrame 1 PacketType.kData 2 3 4 1 255 []).map frameHops
      ≠ some (255 + 1) := by
  decide

/-- C1 amended: no relay is constructed at ttl 0; a DATA or ACK relay
carries ttl - 1 and (hops + 1) mod 256 (uint8_t arithmetic); a
heartbeat relay carries the printed values ttl - 1 and hops + 1. -/
theorem relay_ttl_hops (selfId origin dst msg ttl hops src seq seed : Nat)
    (t : PacketType) (body name : List Char) (gossip : List GossipEntry)
    (httl : ttl < 256) :
    (ttl = 0 → relayFrame selfId t origin dst msg ttl hops body = none
        ∧ hbRelayFrame src seq seed name ttl hops gossip = none)
    ∧ (0 < ttl →
        (relayFrame selfId t origin dst msg ttl hops body).map frameTtl
            = some (ttl - 1)
        ∧ (relayFrame selfId t origin dst msg ttl hops body).map frameHops
            = some ((hops + 1) % 256)
        ∧ (hbRelayFrame src seq seed name ttl hops gossip).map frameTtl
            = some (ttl - 1)
        ∧ (hbRelayFrame src seq seed name ttl hops gossip).map frameHops
            = some (hops + 1)) := by
  constructor
  · intro h0
    simp [relayFrame, hbRelayFrame, h0]
  · intro hpos
    have hne : ttl ≠ 0 := Nat.pos_iff_ne_zero.mp hpos
    have hmod : (ttl - 1) % 256 = ttl - 1 := Nat.mod_eq_of_lt (by omega)
    by_cases ht : t == PacketType.kData <;>
      simp [relayFrame, hbRelayFrame, hne, hpos, ht, frameTtl, frameHops, hmod]

/-- Witness for C1 at ttl 4, hops 0. -/
theorem relay_ttl_hops_w :
    (relayFrame 1 PacketType.kData 2 3 4 4 0 []).map frameTtl = some 3
    ∧ (relayFrame 1 PacketType.kData 2 3 4 4 0 []).map frameHops = some 1
    ∧ (hbRelayFrame 2 7 0 [] 4 0 []).map frameTtl = some 3
    ∧ (hbRelayFrame 2 7 0 [] 4 0 []).map frameHops = some 1 := by
  have h := (relay_ttl_hops 1 2 3 4 4 0 2 7 0 PacketType.kData [] [] []
    (by norm_num)).2 (by norm_num)
  exact h

/-! ## C7: feature-vector bounds -/

theorem capsOverLetters_nonneg (raw : List Char) : 0 ≤ capsOverLetters raw := by
  unfold capsOverLetters
  split_ifs
  · norm_num
  · positivity

theorem buildVector_struct_bounds (text : List Char) (i : Nat) (h : i < 8) :
    0 ≤ buildVector text i ∧ buildVector text i ≤ 1 := by
  have hdiv : ∀ (a : Nat) (b : ℚ), 0 < b →
      0 ≤ min (a : ℚ) b / b ∧ min (a : ℚ) b / b ≤ 1 := by
    intro a b hb
    refine ⟨div_nonneg (le_min (Nat.cast_nonneg a) hb.le) hb.le, ?_⟩
    rw [div_le_one hb]
    exact min_le_right _ _
  have hbool : ∀ (b : Bool),
      0 ≤ (if b then (1 : ℚ) else 0) ∧ (if b then (1 : ℚ) else 0) ≤ 1 := by
    intro b; cases b <;> norm_num
  interval_cases i
  · simpa [buildVector] using hdiv (wordStarts (normOf text) ' ') 50 (by norm_num)
  · simpa [buildVector] using hdiv (normOf text).length 200 (by norm_num)
  · simpa [buildVector] using
      hdiv (((rawOf text).filter (fun c => isDigitC c)).length) 20 (by norm_num)
  · simpa [buildVector] using hbool ((rawOf text).any (fun c => c == '!'))
  · simpa [buildVector] using hbool ((rawOf text).any (fun c => c == '?'))
  · have heq : buildVector text 5 = min (capsOverLetters (rawOf text) * 10) 1 := by
      norm_num [buildVector]
    rw [heq]
    refine ⟨le_min (mul_nonneg (capsOverLetters_nonneg _) (by norm_num)) (by norm_num), ?_⟩
    exact min_le_right _ _
  · simpa [buildVector] using
      hbool (kTimeWords.any fun w => containsToken (normOf text) w)
  · simpa [buildVector] using hbool (containsAnySubstring (normOf text) kLocWords)

theorem buildVector_eq_bucket (text : List Char) (i : Nat) (h1 : 8 ≤ i)
    (h2 : i < 18) :
    buildVector text i
      = ((scoreBucket (normOf text) (kBuckets.getD (i - 8) [])) : ℚ) := by
  have e0 : ¬ i = 0 := by omega
  have e1 : ¬ i = 1 := by omega
  have e2 : ¬ i = 2 := by omega
  have e3 : ¬ i = 3 := by omega
  have e4 : ¬ i = 4 := by omega
  have e5 : ¬ i = 5 := by omega
  have e6 : ¬ i = 6 := by omega
  have e7 : ¬ i = 7 := by omega
  unfold buildVector
  rw [if_neg e0, if_neg e1, if_neg e2, if_neg e3, if_neg e4, if_neg e5,
    if_neg e6, if_neg e7, if_pos h2]

theorem buildVector_eq_bin (text : List Char) (i : Nat) (h1 : 18 ≤ i)
    (h2 : i < 82) :
    buildVector text i = min ((rawBin (normOf text) (i - 18) : ℚ)) 15 / 15 := by
  have e0 : ¬ i = 0 := by omega
  have e1 : ¬ i = 1 := by omega
  have e2 : ¬ i = 2 := by omega
  have e3 : ¬ i = 3 := by omega
  have e4 : ¬ i = 4 := by omega
  have e5 : ¬ i = 5 := by omega
  have e6 : ¬ i = 6 := by omega
  have e7 : ¬ i = 7 := by omega
  have e8 : ¬ i < 18 := by omega
  unfold buildVector
  rw [if_neg e0, if_neg e1, if_neg e2, if_neg e3, if_neg e4, if_neg e5,
    if_neg e6, if_neg e7, if_neg e8, if_pos h2]

/-- C7 amended: structural features (0..7) and 4-gram features (18..81)
lie in [0, 1], every feature is nonnegative, the bucket features
(8..17) are the raw phrase counts (so they may exceed 1) bounded by the
bucket sizes, and a 4-gram bin equals 1 exactly when at least 15
windows hash into it - which more than one bin can do. -/
theorem buildVector_bounds_amended (text : List Char) :
    (∀ i, i < 82 → 0 ≤ buildVector text i)
    ∧ (∀ i, i < 8 → buildVector text i ≤ 1)
    ∧ (∀ i, 18 ≤ i → i < 82 → buildVector text i ≤ 1)
    ∧ (∀ i, 8 ≤ i → i < 18 →
        buildVector text i
          = ((scoreBucket (normOf text) (kBuckets.getD (i - 8) [])) : ℚ)
        ∧ buildVector text i ≤ ((kBuckets.getD (i - 8) []).length : ℚ))
    ∧ (∀ i, 18 ≤ i → i < 82 →
        (buildVector text i = 1 ↔ 15 ≤ rawBin (normOf text) (i - 18))) := by
  refine ⟨?_, ?_, ?_, ?_, ?_⟩
  · intro i hi
    rcases Nat.lt_or_ge i 8 with h8 | h8
    · exact (buildVector_struct_bounds text i h8).1
    · rcases Nat.lt_or_ge i 18 with h18 | h18
      · rw [buildVector_eq_bucket text i h8 h18]
        exact Nat.cast_nonneg _
      · rw [buildVector_eq_bin text i h18 hi]
        apply div_nonneg _ (by norm_num)
        exact le_min (Nat.cast_nonneg _) (by norm_num)
  · intro i hi
    exact (buildVector_struct_bounds text i hi).2
  · intro i h18 hi
    rw [buildVector_eq_bin text i h18 hi]
    rw [div_le_one (by norm_num)]
    exact min_le_right _ _
  · intro i h8 h18
    refine ⟨buildVector_eq_bucket text i h8 h18, ?_⟩
    rw [buildVector_eq_bucket text i h8 h18]
    exact_mod_cast List.length_filter_le _ _
  · intro i h18 hi
    rw [buildVector_eq_bin text i h18 hi]
    rw [div_eq_one_iff_eq (by norm_num)]
    constructor
    · intro h
      exact_mod_cast min_eq_right_iff.mp h
    · intro h
      exact min_eq_right (by exact_mod_cast h)

/-- C7 counterexample: on c7Text the MEDIC bucket feature is 2 (outside
[0, 1]) and the two distinct 4-gram bins 41 and 17 (features 59 and
35) both equal 1.0. -/
theorem buildVector_bounds_cex :
    (1 : ℚ) < buildVector c7Text 8
    ∧ buildVector c7Text 59 = 1
    ∧ buildVector c7Text 35 = 1
    ∧ (59 : Nat) ≠ 35 := by
  have hb8 : scoreBucket (normOf c7Text) (kBuckets.getD 0 []) = 2 := by decide
  have h41 : 15 ≤ rawBin (normOf c7Text) 41 := by decide
  have h17 : 15 ≤ rawBin (normOf c7Text) 17 := by decide
  refine ⟨?_, ?_, ?_, by decide⟩
  · rw [buildVector_eq_bucket c7Text 8 (by norm_num) (by norm_num)]
    rw [show (8 : Nat) - 8 = 0 from rfl, hb8]
    norm_num
  · rw [buildVector_eq_bin c7Text 59 (by norm_num) (by norm_num)]
    rw [show (59 : Nat) - 18 = 41 from rfl]
    rw [min_eq_right (by exact_mod_cast h41)]
    norm_num
  · rw [buildVector_eq_bin c7Text 35 (by norm_num) (by norm_num)]
    rw [show (35 : Nat) - 18 = 17 from rfl]
    rw [min_eq_right (by exact_mod_cast h17)]
    norm_num

/-- Witness for C7 on a short text and indices 0 and 20. -/
theorem buildVector_bounds_w :
    (0 ≤ buildVector ("water now".data) 0 ∧ buildVector ("water now".data) 0 ≤ 1)
    ∧ (buildVector ("water now".data) 20 = 1
        ↔ 15 ≤ rawBin (normOf ("water now".data)) 2) :=
  ⟨⟨(buildVector_bounds_amended ("water now".data)).1 0 (by norm_num),
    (buildVector_bounds_amended ("water now".data)).2.1 0 (by norm_num)⟩,
   (buildVector_bounds_amended ("water now".data)).2.2.2.2 20 (by norm_num) (by norm_num)⟩

/-! ## Table-scan lemmas -/

theorem updateFirst_of_forall_neg {α : Type} (p : α → Bool) (f : α → α)
    (l : List α) (h : ∀ x ∈ l, p x = false) : updateFirst p f l = l := by
  induction l with
  | nil => rfl
  | cons x xs ih =>
      have hx := h x (List.mem_cons_self x xs)
      simp [updateFirst, hx,
        ih (fun y hy => h y (List.mem_cons_of_mem x hy))]

theorem find?_updateFirst_of_pres {α : Type} (p : α → Bool) (f : α → α)
    (l : List α) (hpres : ∀ a, p a = true → p (f a) = true) :
    (updateFirst p f l).find? p = (l.find? p).map f := by
  induction l with
  | nil => rfl
  | cons x xs ih =>
      by_cases hx : p x = true
      · simp [updateFirst, hx, List.find?_cons_of_pos, hpres x hx]
      · have hx' : p x = false := by
          cases hpx : p x
          · rfl
          · exact absurd hpx hx
        simp [updateFirst, hx', List.find?_cons_of_neg, ih]

theorem find?_updateFirst_of_disj {α : Type} (p q : α → Bool) (f : α → α)
    (l : List α) (h : ∀ a, p a = true → q a = false ∧ q (f a) = false) :
    (updateFirst p f l).find? q = l.find? q := by
  induction l with
  | nil => rfl
  | cons x xs ih =>
      by_cases hx : p x = true
      · have hq := h x hx
        simp [updateFirst, hx, List.find?, hq.1, hq.2]
      · have hx' : p x = false := by
          cases hpx : p x
          · rfl
          · exact absurd hpx hx
        by_cases hqx : q x = true
        · simp [updateFirst, hx', List.find?, hqx]
        · have hqx' : q x = false := by
            cases hpx : q x
            · rfl
            · exact absurd hpx hqx
          simp [updateFirst, hx', List.find?, hqx', ih]

theorem find?_updateFirst_insert {α : Type} (p q : α → Bool) (newE : α)
    (l : List α) (hnomatch : ∀ x ∈ l, q x = false) (hfree : l.any p = true)
    (hnew : q newE = true) :
    (updateFirst p (fun _ => newE) l).find? q = some newE := by
  induction l with
  | nil => simp at hfree
  | cons x xs ih =>
      by_cases hx : p x = true
      · simp [updateFirst, hx, List.find?, hnew]
      · have hx' : p x = false := by
          cases hpx : p x
          · rfl
          · exact absurd hpx hx
        have hqx := hnomatch x (List.mem_cons_self x xs)
        have hfree' : xs.any p = true := by
          rcases List.any_eq_true.mp hfree with ⟨y, hy, hpy⟩
          rcases List.mem_cons.mp hy with rfl | hy'
          · exact absurd hpy hx
          · exact List.any_eq_true.mpr ⟨y, hy', hpy⟩
        simp [updateFirst, hx', List.find?, hqx,
          ih (fun y hy => hnomatch y (List.mem_cons_of_mem x hy)) hfree']

/-! ## upsertMember characterization -/

theorem upsertTouch_keeps_key (now seq hops via : Nat) (e : MemberEntry) :
    (upsertTouch now seq hops via e).used = e.used
    ∧ (upsertTouch now seq hops via e).node_id = e.node_id := by
  unfold upsertTouch
  split_ifs <;> simp

theorem memberMatch_upsertTouch (nid now seq hops via : Nat) (e : MemberEntry) :
    memberMatch nid (upsertTouch now seq hops via e) = memberMatch nid e := by
  have h := upsertTouch_keeps_key now seq hops via e
  simp [memberMatch, h.1, h.2]

theorem findMember_upsert_found (selfId now nid seq hops via : Nat)
    (members : List MemberEntry) (e : MemberEntry) (hself : nid ≠ selfId)
    (hfind : findMember members nid = some e) :
    findMember (upsertMember selfId now nid seq hops via members) nid
      = some (upsertTouch now seq hops via e) := by
  have hne : (nid == selfId) = false := by simp [hself]
  have hany : members.any (memberMatch nid) = true :=
    List.any_eq_true.mpr ⟨e, List.mem_of_find?_eq_some hfind, List.find?_some hfind⟩
  unfold upsertMember findMember
  simp only [hne, Bool.false_eq_true, if_false, hany, if_true]
  rw [find?_updateFirst_of_pres _ _ _
    (fun a ha => by rw [memberMatch_upsertTouch]; exact ha)]
  unfold findMember at hfind
  rw [hfind]
  rfl

theorem findMember_upsert_fresh (selfId now nid seq hops via : Nat)
    (members : List MemberEntry) (hself : nid ≠ selfId)
    (hfind : findMember members nid = none)
    (hfree : members.any (fun e => !e.used) = true) :
    findMember (upsertMember selfId now nid seq hops via members) nid
      = some (upsertFresh now nid seq hops via) := by
  have hne : (nid == selfId) = false := by simp [hself]
  have hnomatch : ∀ x ∈ members, memberMatch nid x = false := by
    intro x hx
    exact Bool.not_eq_true _ |>.mp (List.find?_eq_none.mp hfind x hx)
  have hany : members.any (memberMatch nid) = false := by
    rw [Bool.eq_false_iff]
    intro hx
    rcases List.any_eq_true.mp hx with ⟨y, hy, hpy⟩
    rw [hnomatch y hy] at hpy
    exact Bool.false_ne_true hpy
  unfold upsertMember findMember
  simp only [hne, Bool.false_eq_true, if_false, hany, hfree, if_true]
  exact find?_updateFirst_insert _ _ _ _ hnomatch hfree (by simp [memberMatch, upsertFresh])

theorem findMember_upsert_full (selfId now nid seq hops via : Nat)
    (members : List MemberEntry) (hfind : findMember members nid = none)
    (hfree : members.any (fun e => !e.used) = false) :
    upsertMember selfId now nid seq hops via members = members := by
  have hnomatch : ∀ x ∈ members, memberMatch nid x = false := by
    intro x hx
    exact Bool.not_eq_true _ |>.mp (List.find?_eq_none.mp hfind x hx)
  have hany : members.any (memberMatch nid) = false := by
    rw [Bool.eq_false_iff]
    intro hx
    rcases List.any_eq_true.mp hx with ⟨y, hy, hpy⟩
    rw [hnomatch y hy] at hpy
    exact Bool.false_ne_true hpy
  unfold upsertMember
  simp only [hany, hfree, Bool.false_eq_true, if_false]
  split_ifs <;> rfl

theorem findMember_upsert_other (selfId now nid seq hops via other : Nat)
    (members : List MemberEntry) (hother : other ≠ nid) :
    findMember (upsertMember selfId now nid seq hops via members) other
      = findMember members other := by
  unfold upsertMember findMember
  split_ifs with h1 h2 h3
  · rfl
  · apply find?_updateFirst_of_disj
    intro a ha
    have hkey := upsertTouch_keeps_key now seq hops via a
    simp only [memberMatch, Bool.and_eq_true, beq_iff_eq] at ha
    have hne2 : (a.node_id == other) = false := by
      rw [ha.2]
      exact beq_eq_false_iff_ne.mpr (Ne.symm hother)
    constructor
    · simp [memberMatch, hne2]
    · simp [memberMatch, hkey.1, hkey.2, hne2]
  · apply find?_updateFirst_of_disj
    intro a ha
    simp only [Bool.not_eq_true'] at ha
    have hne2 : ((upsertFresh now nid seq hops via).node_id == other) = false := by
      have : (upsertFresh now nid seq hops via).node_id = nid := rfl
      rw [this]
      exact beq_eq_false_iff_ne.mpr (Ne.symm hother)
    constructor
    · simp [memberMatch, ha]
    · simp [memberMatch, hne2]
  · rfl

/-! ## C2: duplicate suppression -/

theorem seenScan_found (now : Nat) (t : PacketType) (origin msg : Nat) :
    ∀ (seen : List SeenEntry) (i : Nat) (hi : i < seen.length),
    liveMatchB now t origin msg (seen.get ⟨i, hi⟩) = true →
    (∀ j (hj : j < seen.length), j < i →
        liveMatchB now t origin msg (seen.get ⟨j, hj⟩) = false) →
    (seenScan now t origin msg seen).1 = true
    ∧ (seenScan now t origin msg seen).2.get? i = seen.get? i := by
  intro seen
  induction seen with
  | nil =>
      intro i hi
      simp at hi
  | cons e rest ih =>
      intro i hi hmatch hfirst
      cases i with
      | zero =>
          have hm : liveMatchB now t origin msg e = true := hmatch
          simp only [liveMatchB, Bool.and_eq_true, decide_eq_true_eq] at hm
          obtain ⟨⟨⟨⟨hused, htime⟩, htype⟩, horig⟩, hmsg⟩ := hm
          have hnotold : ¬ (kMembershipTimeoutMs < sub32 now e.seen_at_ms) :=
            not_lt.mpr htime
          unfold seenScan
          simp [hused, hnotold, htype, horig, hmsg]
      | succ j =>
          have hm0 : liveMatchB now t origin msg e = false :=
            hfirst 0 (by simp) (Nat.succ_pos j)
          have hj : j < rest.length := by
            simpa using hi
          have hmatch' : liveMatchB now t origin msg (rest.get ⟨j, hj⟩) = true := by
            simpa using hmatch
          have hfirst' : ∀ k (hk : k < rest.length), k < j →
              liveMatchB now t origin msg (rest.get ⟨k, hk⟩) = false := by
            intro k hk hkj
            have := hfirst (k + 1) (by simpa using Nat.succ_lt_succ hk)
              (Nat.succ_lt_succ hkj)
            simpa using this
          have hrec := ih j hj hmatch' hfirst'
          unfold seenScan
          by_cases hu : e.used
          · by_cases hold : kMembershipTimeoutMs < sub32 now e.seen_at_ms
            · simp only [hu, Bool.not_true, Bool.false_eq_true, if_false, hold,
                if_true]
              refine ⟨hrec.1, ?_⟩
              simpa using hrec.2
            · have hle : sub32 now e.seen_at_ms ≤ kMembershipTimeoutMs :=
                not_lt.mp hold
              have hkeys : (e.ptype == t && e.origin == origin
                  && e.msg_id == msg) = false := by
                simp only [liveMatchB, hu, hle, decide_eq_true_eq, Bool.true_and,
                  decide_True] at hm0
                simpa [Bool.and_assoc] using hm0
              simp only [hu, Bool.not_true, Bool.false_eq_true, if_false, hold,
                if_true, hkeys]
              refine ⟨hrec.1, ?_⟩
              simpa using hrec.2
          · simp only [Bool.not_eq_true] at hu
            simp only [hu, Bool.not_false, if_true]
            refine ⟨hrec.1, ?_⟩
            simpa using hrec.2

theorem hasSeen_dup (now : Nat) (t : PacketType) (origin msg : Nat)
    (seen : List SeenEntry) (i : Nat) (hi : i < seen.length)
    (hmatch : liveMatchB now t origin msg (seen.get ⟨i, hi⟩) = true)
    (hfirst : ∀ j (hj : j < seen.length), j < i →
        liveMatchB now t origin msg (seen.get ⟨j, hj⟩) = false) :
    (hasSeenAndRemember now t origin msg seen).1 = true
    ∧ (hasSeenAndRemember now t origin msg seen).2.get? i = seen.get? i := by
  have h := seenScan_found now t origin msg seen i hi hmatch hfirst
  unfold hasSeenAndRemember
  rcases hs : seenScan now t origin msg seen with ⟨f, aged⟩
  rw [hs] at h
  rcases h with ⟨h1, h2⟩
  subst h1
  simpa using h2

/-- C2: a triple already live in the duplicate suppressor makes
hasSeenAndRemember answer true and leaves the matching slot as it was;
a duplicate DATA frame changes neither the transmit queue nor the
history, and a duplicate ACK frame changes neither of those nor the
pending-delivery table. -/
theorem dedup_no_side_effects (n : Node)
    (now src origin dst msg ttl hops : Nat) (body : List Char)
    (t : PacketType) (i : Nat) (hi : i < n.seen.length)
    (hmatch : liveMatchB now t origin msg (n.seen.get ⟨i, hi⟩) = true)
    (hfirst : ∀ j (hj : j < n.seen.length), j < i →
        liveMatchB now t origin msg (n.seen.get ⟨j, hj⟩) = false) :
    (hasSeenAndRemember now t origin msg n.seen).1 = true
    ∧ (hasSeenAndRemember now t origin msg n.seen).2.get? i = n.seen.get? i
    ∧ (t = PacketType.kData →
        (handleData n now src origin dst msg ttl hops body).txq = n.txq
        ∧ (handleData n now src origin dst msg ttl hops body).history = n.history)
    ∧ (t = PacketType.kAck →
        (handleAck n now src origin dst msg ttl hops).txq = n.txq
        ∧ (handleAck n now src origin dst msg ttl hops).history = n.history
        ∧ (handleAck n now src origin dst msg ttl hops).pending = n.pending) := by
  have h := hasSeen_dup now t origin msg n.seen i hi hmatch hfirst
  refine ⟨h.1, h.2, ?_, ?_⟩
  · intro ht
    subst ht
    simp [handleData, h.1]
  · intro ht
    subst ht
    simp [handleAck, h.1]

/-- Witness for C2 at the concrete node c2Node, whose suppressor holds
live (Data, 2, 9) and (Ack, 2, 9) entries. -/
theorem dedup_no_side_effects_w :
    (hasSeenAndRemember 2000 PacketType.kData 2 9 c2Node.seen).1 = true
    ∧ (handleData c2Node 2000 3 2 1 9 4 0 ("hello".data)).txq = c2Node.txq
    ∧ (handleData c2Node 2000 3 2 1 9 4 0 ("hello".data)).history
        = c2Node.history := by
  have h := dedup_no_side_effects c2Node 2000 3 2 1 9 4 0 ("hello".data)
    PacketType.kData 0 (by decide) (by decide) (by omega)
  exact ⟨h.1, (h.2.2.1 rfl).1, (h.2.2.1 rfl).2⟩

/-! ## C3: direct neighbor upsert -/

theorem handleData_members (n : Node)
    (now src origin dst msg ttl hops : Nat) (body : List Char) :
    (handleData n now src origin dst msg ttl hops body).members =
      (if origin != n.node_id then
        upsertMember n.node_id now origin 0 1 0
          (upsertMember n.node_id now src 0 1 src n.members)
       else upsertMember n.node_id now src 0 1 src n.members) := by
  unfold handleData relayPacket nodeEnqueue
  cases horig : (origin != n.node_id) <;>
    cases hscan : (hasSeenAndRemember now PacketType.kData origin msg n.seen).1 <;>
    cases hdst : (dst == n.node_id) <;>
    simp only [horig, hscan, hdst, Bool.false_eq_true, Bool.true_eq_false,
      if_true, if_false] <;>
    first
      | rfl
      | (cases relayFrame n.node_id PacketType.kData origin dst msg ttl hops body <;> rfl)

theorem handleAck_members (n : Node) (now src origin dst msg ttl hops : Nat) :
    (handleAck n now src origin dst msg ttl hops).members =
      (if origin != n.node_id then
        upsertMember n.node_id now origin 0 1 0
          (upsertMember n.node_id now src 0 1 src n.members)
       else upsertMember n.node_id now src 0 1 src n.members) := by
  unfold handleAck relayPacket nodeEnqueue
  cases horig : (origin != n.node_id) <;>
    cases hscan : (hasSeenAndRemember now PacketType.kAck origin msg n.seen).1 <;>
    cases hdst : (dst == n.node_id) <;>
    simp only [horig, hscan, hdst, Bool.false_eq_true, Bool.true_eq_false,
      if_true, if_false] <;>
    first
      | rfl
      | (cases relayFrame n.node_id PacketType.kAck origin dst msg ttl hops [] <;> rfl)

theorem upsertTouch_data (now src : Nat) (e : MemberEntry) (hsrc : src ≠ 0) :
    upsertTouch now 0 1 src e = directUpdateEntry now src e := by
  unfold upsertTouch directUpdateEntry
  by_cases h : 1 < e.hops_away <;> simp [h, hsrc]

theorem upsertFresh_data (now src : Nat) :
    upsertFresh now src 0 1 src = freshDirectEntry now src := by
  unfold upsertFresh freshDirectEntry
  by_cases h : src ≠ 0 <;> simp [h]

theorem upsertTouch_direct_idem (now src : Nat) (e : MemberEntry) :
    upsertTouch now 0 1 0 (directUpdateEntry now src e)
      = directUpdateEntry now src e := by
  unfold upsertTouch directUpdateEntry
  by_cases h : 1 < e.hops_away <;> simp [h]

theorem upsertTouch_fresh_idem (now src : Nat) :
    upsertTouch now 0 1 0 (freshDirectEntry now src)
      = freshDirectEntry now src := by
  unfold upsertTouch freshDirectEntry
  simp

theorem memberMatch_hbFix (nid seed : Nat) (name : List Char) (a : MemberEntry) :
    memberMatch nid (hbFix seed name a) = memberMatch nid a := by
  unfold hbFix memberMatch
  split_ifs <;> simp

theorem hbFix_upsertTouch (now src seq seed : Nat) (name : List Char)
    (hops : Nat) (e : MemberEntry) (hsrc : src ≠ 0) :
    hbFix seed name (upsertTouch now seq (hbEffHops hops) src e)
      = hbUpdateEntry now src seq seed name hops e := by
  unfold hbFix upsertTouch hbUpdateEntry
  by_cases h1 : 0 < hbEffHops hops <;>
    by_cases h2 : hbEffHops hops < e.hops_away <;>
    by_cases h3 : name = [] <;>
    by_cases h4 : seed = 0 <;>
    simp [h1, h2, h3, h4, hsrc]

theorem hbFix_upsertFresh (now src seq seed : Nat) (name : List Char)
    (hops : Nat) :
    hbFix seed name (upsertFresh now src seq (hbEffHops hops) src)
      = freshHbEntry now src seq seed name hops := by
  unfold hbFix upsertFresh freshHbEntry
  by_cases h1 : 0 < hbEffHops hops <;>
    by_cases h3 : name = [] <;>
    by_cases h4 : seed = 0 <;>
    by_cases h5 : src ≠ 0 <;>
    simp [h1, h3, h4, h5]

theorem hbApplyDirect_found (selfId now src seq seed : Nat) (name : List Char)
    (hops : Nat) (members : List MemberEntry) (e : MemberEntry)
    (hself : src ≠ selfId) (hsrc : src ≠ 0)
    (hfind : findMember members src = some e) :
    findMember (hbApplyDirect selfId now src seq seed name hops members) src
      = some (hbUpdateEntry now src seq seed name hops e) := by
  unfold hbApplyDirect findMember
  rw [find?_updateFirst_of_pres _ _ _
    (fun a ha => by rw [memberMatch_hbFix]; exact ha)]
  have h1 := findMember_upsert_found selfId now src seq (hbEffHops hops) src
    members e hself hfind
  unfold findMember at h1
  rw [h1]
  simp [hbFix_upsertTouch now src seq seed name hops e hsrc]

theorem hbApplyDirect_fresh (selfId now src seq seed : Nat) (name : List Char)
    (hops : Nat) (members : List MemberEntry)
    (hself : src ≠ selfId)
    (hfind : findMember members src = none)
    (hfree : members.any (fun e => !e.used) = true) :
    findMember (hbApplyDirect selfId now src seq seed name hops members) src
      = some (freshHbEntry now src seq seed name hops) := by
  unfold hbApplyDirect findMember
  rw [find?_updateFirst_of_pres _ _ _
    (fun a ha => by rw [memberMatch_hbFix]; exact ha)]
  have h1 := findMember_upsert_fresh selfId now src seq (hbEffHops hops) src
    members hself hfind hfree
  unfold findMember at h1
  rw [h1]
  simp [hbFix_upsertFresh now src seq seed name hops]

/-- C3 amended: receipt of a DATA or ACK frame upserts the sender with
last_seen_ms = now, lowering hops_away to 1 and moving via_node to the
sender only when the stored hop count was above 1, and leaves sequence,
name and seed alone; an unknown sender lands, capacity permitting, in a
fresh slot with hops_away = 1 and via_node = the sender.  A heartbeat
upserts its origin with effective_hops (1 when hops = 0, otherwise the
uint8_t value hops + 1, so not always 1), takes the sequence only when
non-zero, lowers hops/via only when strictly better, and overwrites
name / hop seed only when non-empty / non-zero. -/
theorem direct_upsert_amended (n : Node)
    (now src origin dst msg ttl hops seq seed : Nat)
    (name body : List Char)
    (hself : src ≠ n.node_id) (hsrc : src ≠ 0) :
    (∀ e, findMember n.members src = some e →
        findMember (handleData n now src origin dst msg ttl hops body).members src
          = some (directUpdateEntry now src e)
        ∧ findMember (handleAck n now src origin dst msg ttl hops).members src
          = some (directUpdateEntry now src e)
        ∧ findMember (hbApplyDirect n.node_id now src seq seed name hops n.members) src
          = some (hbUpdateEntry now src seq seed name hops e))
    ∧ (findMember n.members src = none →
        n.members.any (fun e => !e.used) = true →
        findMember (handleData n now src origin dst msg ttl hops body).members src
          = some (freshDirectEntry now src)
        ∧ findMember (handleAck n now src origin dst msg ttl hops).members src
          = some (freshDirectEntry now src)
        ∧ findMember (hbApplyDirect n.node_id now src seq seed name hops n.members) src
          = some (freshHbEntry now src seq seed name hops)) := by
  have hcommon : ∀ (m1 : List MemberEntry) (u : MemberEntry),
      findMember m1 src = some u → upsertTouch now 0 1 0 u = u →
      findMember (if origin != n.node_id then
          upsertMember n.node_id now origin 0 1 0 m1 else m1) src
        = some u := by
    intro m1 u hm1 hu
    by_cases ho : origin != n.node_id
    · rw [if_pos ho]
      by_cases hos : origin = src
      · subst hos
        rw [findMember_upsert_found n.node_id now origin 0 1 0 m1 u hself hm1, hu]
      · rw [findMember_upsert_other n.node_id now origin 0 1 0 src m1
          (fun hc => hos hc.symm)]
        exact hm1
    · rw [if_neg ho]
      exact hm1
  constructor
  · intro e hfind
    have hm1 : findMember (upsertMember n.node_id now src 0 1 src n.members) src
        = some (directUpdateEntry now src e) := by
      rw [findMember_upsert_found n.node_id now src 0 1 src n.members e hself hfind,
        upsertTouch_data now src e hsrc]
    refine ⟨?_, ?_, ?_⟩
    · rw [handleData_members]
      exact hcommon _ _ hm1 (upsertTouch_direct_idem now src e)
    · rw [handleAck_members]
      exact hcommon _ _ hm1 (upsertTouch_direct_idem now src e)
    · exact hbApplyDirect_found n.node_id now src seq seed name hops n.members
        e hself hsrc hfind
  · intro hfind hfree
    have hm1 : findMember (upsertMember n.node_id now src 0 1 src n.members) src
        = some (freshDirectEntry now src) := by
      rw [findMember_upsert_fresh n.node_id now src 0 1 src n.members hself hfind hfree,
        upsertFresh_data now src]
    refine ⟨?_, ?_, ?_⟩
    · rw [handleData_members]
      exact hcommon _ _ hm1 (upsertTouch_fresh_idem now src)
    · rw [handleAck_members]
      exact hcommon _ _ hm1 (upsertTouch_fresh_idem now src)
    · exact hbApplyDirect_fresh n.node_id now src seq seed name hops n.members
        hself hfind hfree

/-- C3 counterexample: a relayed heartbeat (hops = 1) from node 0x0002
leaves the table with hops_away = 2 for the sender field of the frame,
not the claimed hops_away = 1. -/
theorem direct_upsert_cex :
    (findMember (parseAndHandlePacket exNode 5000
        (("H|0002|7|DEADBEEF|Bob|4|1").data)).members 2).map
          MemberEntry.hops_away = some 2
    ∧ (2 : Nat) ≠ 1 := by
  exact ⟨by decide, by decide⟩

/-- Witness for C3: an unknown sender 0x0002 originating its own DATA
frame (from = origin, the unrelayed case) lands in a fresh slot. -/
theorem direct_upsert_amended_w :
    findMember (handleData exNode 5000 2 2 1 7 4 1 ("hi".data)).members 2
      = some (freshDirectEntry 5000 2)
    ∧ findMember (hbApplyDirect exNode.node_id 5000 2 7 0 ("Bob".data) 1
        exNode.members) 2
      = some (freshHbEntry 5000 2 7 0 ("Bob".data) 1) := by
  have h := (direct_upsert_amended exNode 5000 2 2 1 7 4 1 7 0 ("Bob".data)
    ("hi".data) (by decide) (by decide)).2 (by decide) (by decide)
  exact ⟨h.1, h.2.2⟩

/-! ## C4: gossip merge -/

theorem updateFirst_eq_self_of_find {α : Type} (p : α → Bool) (f : α → α)
    (l : List α) (a : α) (hfind : l.find? p = some a) (hfa : f a = a) :
    updateFirst p f l = l := by
  induction l with
  | nil => rfl
  | cons x xs ih =>
      by_cases hx : p x = true
      · rw [List.find?_cons_of_pos _ hx] at hfind
        have hax : a = x := by injection hfind with hh; exact hh.symm
        subst hax
        simp [updateFirst, hx, hfa]
      · have hx' : p x = false := by
          cases hpx : p x
          · rfl
          · exact absurd hpx hx
        rw [List.find?_cons_of_neg _ hx] at hfind
        simp [updateFirst, hx', ih hfind]

theorem memberMatch_gossipTouch (nid via now newHops : Nat) (ge : GossipEntry)
    (a : MemberEntry) :
    memberMatch nid (gossipTouch via now newHops ge a) = memberMatch nid a := by
  unfold gossipTouch memberMatch
  split_ifs <;> simp

theorem memberMatch_gossipNameFix (nid : Nat) (ge : GossipEntry)
    (a : MemberEntry) :
    memberMatch nid (gossipNameFix ge a) = memberMatch nid a := by
  unfold gossipNameFix memberMatch
  simp

/-- C4 amended: a gossip entry (nid, name, seq, hops_away) with nid not
self updates the table entry for nid iff the entry is absent (in which
case it is created only when a free slot exists), or its stored
sequence is older, or equally new with a strictly larger hop count; on
an update the entry gets last_seen_at = now, last_heartbeat_seq = seq,
hops_away = new_hops = (hops_away + 1) mod 256 (uint8_t), via_node =
the heartbeat sender, and the name is overwritten only when
non-empty. -/
theorem gossip_merge_amended (members : List MemberEntry)
    (selfId via now : Nat) (ge : GossipEntry)
    (hself_lt : selfId < 65536) (hnself : ge.node_id ≠ selfId)
    (hvia : via ≠ 0) :
    (∀ e, findMember members ge.node_id = some e →
        (e.last_heartbeat_seq < ge.seq
            ∨ (e.last_heartbeat_seq = ge.seq
                ∧ (ge.hops_away + 1) % 256 < e.hops_away) →
          findMember (processGossipEntries selfId via now [ge] members)
              ge.node_id = some (gossipUpdatedEntry via now ge e))
        ∧ (¬(e.last_heartbeat_seq < ge.seq
            ∨ (e.last_heartbeat_seq = ge.seq
                ∧ (ge.hops_away + 1) % 256 < e.hops_away)) →
          processGossipEntries selfId via now [ge] members = members))
    ∧ (findMember members ge.node_id = none →
        (members.any (fun e => !e.used) = true →
          findMember (processGossipEntries selfId via now [ge] members)
              ge.node_id = some (freshGossipEntry now via ge))
        ∧ (members.any (fun e => !e.used) = false →
          processGossipEntries selfId via now [ge] members = members)) := by
  have hone : processGossipEntries selfId via now [ge] members
      = processOneGossip selfId via now members ge := rfl
  have hmask : selfId % 65536 = selfId := Nat.mod_eq_of_lt hself_lt
  have hne : (ge.node_id == selfId % 65536) = false := by
    rw [hmask]
    exact beq_eq_false_iff_ne.mpr hnself
  constructor
  · intro e hfind
    have hany : members.any (memberMatch ge.node_id) = true :=
      List.any_eq_true.mpr
        ⟨e, List.mem_of_find?_eq_some hfind, List.find?_some hfind⟩
    constructor
    · intro hcond
      have hb : (decide (e.last_heartbeat_seq < ge.seq)
          || (e.last_heartbeat_seq == ge.seq
              && decide ((ge.hops_away + 1) % 256 < e.hops_away))) = true := by
        rcases hcond with h1 | ⟨h2, h3⟩
        · simp [h1]
        · simp [h2, h3]
      rw [hone]
      unfold processOneGossip findMember
      simp only [hne, Bool.false_eq_true, if_false, hany, if_true]
      rw [find?_updateFirst_of_pres _ _ _
        (fun a ha => by rw [memberMatch_gossipTouch]; exact ha)]
      unfold findMember at hfind
      rw [hfind]
      simp only [Option.map_some']
      unfold gossipTouch gossipUpdatedEntry
      rw [if_pos hb]
    · intro hcond
      have hb : (decide (e.last_heartbeat_seq < ge.seq)
          || (e.last_heartbeat_seq == ge.seq
              && decide ((ge.hops_away + 1) % 256 < e.hops_away))) = false := by
        push_neg at hcond
        rcases hcond with ⟨h1, h2⟩
        by_cases heq : e.last_heartbeat_seq = ge.seq
        · simp [h1, heq, h2 heq]
        · simp [h1, heq]
      rw [hone]
      unfold processOneGossip
      simp only [hne, Bool.false_eq_true, if_false, hany, if_true]
      apply updateFirst_eq_self_of_find _ _ _ e hfind
      unfold gossipTouch
      rw [if_neg (by rw [hb]; exact Bool.false_ne_true)]
  · intro hfind
    constructor
    · intro hfree
      have hany : members.any (memberMatch ge.node_id) = false := by
        rw [Bool.eq_false_iff]
        intro hx
        rcases List.any_eq_true.mp hx with ⟨y, hy, hpy⟩
        have := List.find?_eq_none.mp hfind y hy
        exact this hpy
      rw [hone]
      unfold processOneGossip findMember
      simp only [hne, Bool.false_eq_true, if_false, hany, if_true]
      rw [find?_updateFirst_of_pres _ _ _
        (fun a ha => by rw [memberMatch_gossipNameFix]; exact ha)]
      have h1 := findMember_upsert_fresh selfId now ge.node_id ge.seq
        ((ge.hops_away + 1) % 256) via members hnself hfind hfree
      unfold findMember at h1
      rw [h1]
      unfold gossipNameFix upsertFresh freshGossipEntry
      simp [hvia]
    · intro hfull
      rw [hone]
      unfold processOneGossip
      have hany : members.any (memberMatch ge.node_id) = false := by
        rw [Bool.eq_false_iff]
        intro hx
        rcases List.any_eq_true.mp hx with ⟨y, hy, hpy⟩
        have := List.find?_eq_none.mp hfind y hy
        exact this hpy
      simp only [hne, Bool.false_eq_true, if_false, hany, if_true]
      rw [findMember_upsert_full selfId now ge.node_id ge.seq
        ((ge.hops_away + 1) % 256) via members hfind hfull]
      apply updateFirst_of_forall_neg
      intro x hx
      exact Bool.not_eq_true _ |>.mp (List.find?_eq_none.mp hfind x hx)

/-- C4 counterexample: with all 24 slots occupied and the gossiped node
absent, the claim requires an update (cur absent) yet the table is
returned unchanged. -/
theorem gossip_merge_cex :
    processGossipEntries 1 2 5000 [c4Entry] fullMembers = fullMembers
    ∧ findMember fullMembers c4Entry.node_id = none := by
  exact ⟨by decide, by decide⟩

/-- Witness for C4: on the empty table the gossiped node 50 lands in a
fresh slot. -/
theorem gossip_merge_amended_w :
    findMember (processGossipEntries 1 2 5000 [c4Entry] exNode.members)
        c4Entry.node_id = some (freshGossipEntry 5000 2 c4Entry) :=
  ((gossip_merge_amended exNode.members 1 2 5000 c4Entry (by decide)
    (by decide) (by decide)).2 (by decide)).1 (by decide)

/-! ## C5: malformed-frame handling -/

theorem dropWhile_head_not (p : Char → Bool) (l : List Char) (x : Char)
    (xs : List Char) (h : l.dropWhile p = x :: xs) : p x = false := by
  induction l with
  | nil => simp at h
  | cons c cs ih =>
      by_cases hc : p c = true
      · rw [List.dropWhile_cons_of_pos hc] at h
        exact ih h
      · have hc' : p c = false := by
          cases hpc : p c
          · rfl
          · exact absurd hpc hc
        rw [List.dropWhile_cons_of_neg hc] at h
        injection h with h1 _
        rw [← h1]
        exact hc'

theorem tokSplit_dropWhile (cs : List Char) :
    tokSplit '|' cs = tokSplit '|' (cs.dropWhile (fun c => c == '|')) := by
  induction cs with
  | nil => rfl
  | cons c cs ih =>
      by_cases hc : (c == '|') = true
      · have h1 : tokSplit '|' (c :: cs) = tokSplit '|' cs := by
          conv_lhs => rw [tokSplit]
          rw [if_pos hc]
        have h2 : (c :: cs).dropWhile (fun c => c == '|')
            = cs.dropWhile (fun c => c == '|') := by
          simp [List.dropWhile, hc]
        rw [h1, h2]
        exact ih
      · have hc' : (c == '|') = false := by
          cases hpc : (c == '|')
          · rfl
          · exact absurd hpc hc
        have h2 : (c :: cs).dropWhile (fun c => c == '|') = c :: cs := by
          simp [List.dropWhile, hc']
        rw [h2]

theorem nextTok_none_tokSplit (cs : List Char) (h : nextTok cs = none) :
    tokSplit '|' cs = [] := by
  unfold nextTok at h
  rw [tokSplit_dropWhile]
  cases hd : cs.dropWhile (fun c => c == '|') with
  | nil => simp [tokSplit]
  | cons c rest => rw [hd] at h; simp at h

theorem nextTok_some_tokSplit (cs t r : List Char)
    (h : nextTok cs = some (t, r)) :
    tokSplit '|' cs = t :: tokSplit '|' r := by
  unfold nextTok at h
  rw [tokSplit_dropWhile]
  cases hd : cs.dropWhile (fun c => c == '|') with
  | nil => rw [hd] at h; simp at h
  | cons c rest =>
      rw [hd] at h
      simp only [Option.some.injEq, Prod.mk.injEq] at h
      obtain ⟨ht, hr⟩ := h
      have hcpipe : (c == '|') = false :=
        dropWhile_head_not (fun c => c == '|') cs c rest hd
      have hstep : tokSplit '|' (c :: rest)
          = (c :: rest.takeWhile (fun d => d != '|')) ::
            tokSplit '|' (rest.dropWhile (fun d => d != '|')) := by
        conv_lhs => rw [tokSplit]
        rw [if_neg (by rw [hcpipe]; exact Bool.false_ne_true)]
      rw [hstep, ht]
      congr 1
      cases hdd : rest.dropWhile (fun d => d != '|') with
      | nil =>
          rw [hdd] at hr
          have hr' : ([] : List Char) = r := hr
          rw [← hr']
      | cons d ds =>
          rw [hdd] at hr
          have hr' : ds = r := hr
          have hdpipe : (d != '|') = false :=
            dropWhile_head_not (fun d => d != '|') rest d ds hdd
          have hdeq : (d == '|') = true := by
            cases hde : (d == '|')
            · simp [bne, hde] at hdpipe
            · rfl
          have h3 : tokSplit '|' (d :: ds) = tokSplit '|' ds := by
            conv_lhs => rw [tokSplit]
            rw [if_pos hdeq]
          rw [h3, hr']

theorem tokSplit_len_none (r : List Char) (h : nextTok r = none) :
    (tokSplit '|' r).length = 0 := by
  rw [nextTok_none_tokSplit r h]
  rfl

theorem tokSplit_len_some (r t r2 : List Char) (h : nextTok r = some (t, r2)) :
    (tokSplit '|' r).length = 1 + (tokSplit '|' r2).length := by
  rw [nextTok_some_tokSplit r t r2 h]
  simp [Nat.add_comm]

theorem parse_h_short (n : Node) (now : Nat) (input ts r1 : List Char)
    (h0 : nextTok (input.take 219) = some ('H' :: ts, r1))
    (hlen : (tokSplit '|' (input.take 219)).length < 3) :
    parseAndHandlePacket n now input = n := by
  have hl0 := tokSplit_len_some _ _ _ h0
  unfold parseAndHandlePacket
  simp only [h0]
  cases h1 : nextTok r1 with
  | none => simp [h1]
  | some p1 =>
      obtain ⟨t1, r2⟩ := p1
      have hl1 := tokSplit_len_some _ _ _ h1
      cases h2 : nextTok r2 with
      | none => simp [h1, h2]
      | some p2 =>
          obtain ⟨t2, r3⟩ := p2
          have hl2 := tokSplit_len_some _ _ _ h2
          exfalso
          rw [hl0, hl1, hl2] at hlen
          omega

theorem parse_short_da (n : Node) (now : Nat) (input : List Char) (tc : Char)
    (ts r1 : List Char)
    (h0 : nextTok (input.take 219) = some (tc :: ts, r1))
    (hH : (tc == 'H') = false)
    (hlen : (tokSplit '|' (input.take 219)).length < 7) :
    parseAndHandlePacket n now input = n := by
  have hl0 := tokSplit_len_some _ _ _ h0
  unfold parseAndHandlePacket
  simp only [h0]
  cases h1 : nextTok r1 with
  | none => simp [hH, h1]
  | some p1 =>
  obtain ⟨t1, r2⟩ := p1
  have hl1 := tokSplit_len_some _ _ _ h1
  cases h2 : nextTok r2 with
  | none => simp [hH, h1, h2]
  | some p2 =>
  obtain ⟨t2, r3⟩ := p2
  have hl2 := tokSplit_len_some _ _ _ h2
  cases h3 : nextTok r3 with
  | none => simp [hH, h1, h2, h3]
  | some p3 =>
  obtain ⟨t3, r4⟩ := p3
  have hl3 := tokSplit_len_some _ _ _ h3
  cases h4 : nextTok r4 with
  | none => simp [hH, h1, h2, h3, h4]
  | some p4 =>
  obtain ⟨t4, r5⟩ := p4
  have hl4 := tokSplit_len_some _ _ _ h4
  cases h5 : nextTok r5 with
  | none => simp [hH, h1, h2, h3, h4, h5]
  | some p5 =>
  obtain ⟨t5, r6⟩ := p5
  have hl5 := tokSplit_len_some _ _ _ h5
  cases h6 : nextTok r6 with
  | none => simp [hH, h1, h2, h3, h4, h5, h6]
  | some p6 =>
  obtain ⟨t6, r7⟩ := p6
  have hl6 := tokSplit_len_some _ _ _ h6
  exfalso
  rw [hl0, hl1, hl2, hl3, hl4, hl5, hl6] at hlen
  omega

theorem parse_unknown_type (n : Node) (now : Nat) (input : List Char)
    (tc : Char) (ts r1 : List Char)
    (h0 : nextTok (input.take 219) = some (tc :: ts, r1))
    (hH : (tc == 'H') = false) (hD : (tc == 'D') = false)
    (hA : (tc == 'A') = false) :
    parseAndHandlePacket n now input = n := by
  unfold parseAndHandlePacket
  simp only [h0]
  cases h1 : nextTok r1 with
  | none => simp [hH, h1]
  | some p1 =>
  obtain ⟨t1, r2⟩ := p1
  cases h2 : nextTok r2 with
  | none => simp [hH, h1, h2]
  | some p2 =>
  obtain ⟨t2, r3⟩ := p2
  cases h3 : nextTok r3 with
  | none => simp [hH, h1, h2, h3]
  | some p3 =>
  obtain ⟨t3, r4⟩ := p3
  cases h4 : nextTok r4 with
  | none => simp [hH, h1, h2, h3, h4]
  | some p4 =>
  obtain ⟨t4, r5⟩ := p4
  cases h5 : nextTok r5 with
  | none => simp [hH, h1, h2, h3, h4, h5]
  | some p5 =>
  obtain ⟨t5, r6⟩ := p5
  cases h6 : nextTok r6 with
  | none => simp [hH, h1, h2, h3, h4, h5, h6]
  | some p6 =>
  obtain ⟨t6, r7⟩ := p6
  simp [hH, hD, hA, h1, h2, h3, h4, h5, h6]

/-- C5 amended: a frame is dropped with the node state exactly
unchanged precisely in these cases: no token at all; an unknown leading
type character; an H frame with fewer than 3 tokens (from or seq
missing); a D or A frame with fewer than 7 tokens (one of the six
header fields missing).  Numeric fields never fail to parse (strtoul
reads non-numeric text as 0), so no frame is dropped for a parse
failure, and an H frame missing its later fields is processed with
zero/empty defaults rather than dropped. -/
theorem parse_drop_amended (n : Node) (now : Nat) (input : List Char) :
    (tokSplit '|' (input.take 219) = [] → parseAndHandlePacket n now input = n)
    ∧ (∀ tc ts, (tokSplit '|' (input.take 219)).head? = some (tc :: ts) →
        (tc = 'H' → (tokSplit '|' (input.take 219)).length < 3 →
            parseAndHandlePacket n now input = n)
        ∧ ((tc = 'D' ∨ tc = 'A') → (tokSplit '|' (input.take 219)).length < 7 →
            parseAndHandlePacket n now input = n)
        ∧ (tc ≠ 'H' → tc ≠ 'D' → tc ≠ 'A' →
            parseAndHandlePacket n now input = n)) := by
  cases h0 : nextTok (input.take 219) with
  | none =>
      constructor
      · intro _
        unfold parseAndHandlePacket
        simp only [h0]
      · intro tc ts hhead
        rw [nextTok_none_tokSplit _ h0] at hhead
        simp at hhead
  | some tr =>
      obtain ⟨t, r1⟩ := tr
      have hsplit0 := nextTok_some_tokSplit _ _ _ h0
      constructor
      · intro h
        rw [hsplit0] at h
        simp at h
      · intro tc ts hhead
        rw [hsplit0] at hhead
        simp only [List.head?_cons, Option.some.injEq] at hhead
        subst hhead
        refine ⟨?_, ?_, ?_⟩
        · intro htc hlen
          subst htc
          exact parse_h_short n now input ts r1 h0 hlen
        · intro htc hlen
          rcases htc with rfl | rfl
          · exact parse_short_da n now input 'D' ts r1 h0 (by decide) hlen
          · exact parse_short_da n now input 'A' ts r1 h0 (by decide) hlen
        · intro hH hD hA
          refine parse_unknown_type n now input tc ts r1 h0 ?_ ?_ ?_
          · exact beq_eq_false_iff_ne.mpr hH
          · exact beq_eq_false_iff_ne.mpr hD
          · exact beq_eq_false_iff_ne.mpr hA

/-- C5 counterexample: in frame D|0002|0003|0004|XYZ|4|0|hi the msg_id
field fails to parse as a number (strtoul reads 0), yet the frame is
processed, changing the neighbor table - not silently dropped with no
table change as the claim requires. -/
theorem parse_drop_cex :
    (parseAndHandlePacket exNode 5000
        (("D|0002|0003|0004|XYZ|4|0|hi").data)).members ≠ exNode.members := by
  decide

/-- Witness for C5 on the frame D|0001|0002, which has only three of
the seven required tokens and is dropped without any state change. -/
theorem parse_drop_amended_w :
    parseAndHandlePacket exNode 5000 (("D|0001|0002").data) = exNode := by
  have h0 : nextTok ((("D|0001|0002").data).take 219)
      = some (("D").data, ("0001|0002").data) := by decide
  have h1 : nextTok (("0001|0002").data) = some (("0001").data, ("0002").data) := by
    decide
  have h2 : nextTok (("0002").data) = some (("0002").data, ([] : List Char)) := by
    decide
  have h3 : nextTok ([] : List Char) = none := by decide
  have hlen : (tokSplit '|' ((("D|0001|0002").data).take 219)).length < 7 := by
    rw [tokSplit_len_some _ _ _ h0, tokSplit_len_some _ _ _ h1,
      tokSplit_len_some _ _ _ h2, tokSplit_len_none _ h3]
    norm_num
  have hhead : (tokSplit '|' ((("D|0001|0002").data).take 219)).head?
      = some ('D' :: []) := by
    rw [nextTok_some_tokSplit _ _ _ h0]
    rfl
  exact ((parse_drop_amended exNode 5000 (("D|0001|0002").data)).2 'D' []
    hhead).2.1 (Or.inl rfl) hlen

end LifeLink
